import Mathlib

/-!
Sign-language game: classifier and game loop of `Signgame.jsx`.

A shallow embedding of the decision logic of the React component
`SignLanguageGame` (file `src/study/src/page/Deaf/components/Signgame.jsx`):

* `detectSignLanguageLetter`, the cascade of geometric tests that maps the
  landmarks of one hand to a letter;
* the component state (`useState` cells), its three game effects
  (`useEffect` bodies) and the event handlers that drive them.

JavaScript numbers are idealised as exact rationals, so `Math.hypot` is kept
as the square of its value and compared against the squared threshold. The
random draw is given a second time with its product rounded to the nearest
double (`randomLetter`), which is what decides the letter next to the
interval boundaries.
-/

namespace SignGame

/-! ## Landmarks and JavaScript values -/

/-- A hand landmark: normalised image coordinates of one tracked point. -/
structure Landmark where
  x : ℚ
  y : ℚ
deriving DecidableEq

/-- The runtime error the classifier can raise: reading a property of
`undefined` throws a `TypeError`. -/
inductive JsError where
  | typeError
deriving DecidableEq

/-- Result of `Math.hypot`: a non-negative magnitude, stored as its square. -/
structure Magnitude where
  sq : ℚ
deriving DecidableEq

/-- The call `Math.hypot(a, b)`, that is `sqrt (a * a + b * b)`. -/
def Math.hypot (a b : ℚ) : Magnitude := ⟨a * a + b * b⟩

/-- The call `Math.abs(a)`. -/
def Math.abs (a : ℚ) : ℚ := if a < 0 then -a else a

/-- The test `m < c` for a magnitude `m = sqrt sq`: false for `c ≤ 0`, and
`sq < c * c` otherwise. -/
def Magnitude.lt (m : Magnitude) (c : ℚ) : Bool := decide (0 < c ∧ m.sq < c * c)

/-- The test `m > c` for a magnitude `m = sqrt sq`: true for `c < 0`, and
`c * c < sq` otherwise. -/
def Magnitude.gt (m : Magnitude) (c : ℚ) : Bool := decide (c < 0 ∨ c * c < m.sq)

/-- The property read `p.x`, where `p` is the value of `landmarks[i]`
(`none` is `undefined`, on which the read throws). -/
def getX (p : Option Landmark) : Except JsError ℚ :=
  match p with
  | some l => .ok l.x
  | none => .error .typeError

/-- The property read `p.y`, where `p` is the value of `landmarks[i]`. -/
def getY (p : Option Landmark) : Except JsError ℚ :=
  match p with
  | some l => .ok l.y
  | none => .error .typeError

/-- The comparison `a < b` of two numeric expressions, left operand first. -/
def jsLt (a b : Except JsError ℚ) : Except JsError Bool := do
  let u ← a
  let v ← b
  pure (decide (u < v))

/-- The comparison `a > b` of two numeric expressions, left operand first. -/
def jsGt (a b : Except JsError ℚ) : Except JsError Bool := do
  let u ← a
  let v ← b
  pure (decide (u > v))

/-- The comparison `d < c` of a distance with a numeric literal. -/
def distLt (d : Except JsError Magnitude) (c : ℚ) : Except JsError Bool := do
  let m ← d
  pure (m.lt c)

/-- The comparison `d > c` of a distance with a numeric literal. -/
def distGt (d : Except JsError Magnitude) (c : ℚ) : Except JsError Bool := do
  let m ← d
  pure (m.gt c)

/-- A chain `c₁ && c₂ && ... && cₙ` of boolean tests: evaluated left to right,
stopping at the first test that is false or throws. -/
def allOf : List (Except JsError Bool) → Except JsError Bool
  | [] => pure true
  | c :: cs => do
    if (← c) then allOf cs else pure false

/-- The local helper `distance(point1, point2)` of the classifier. -/
def distance (point1 point2 : Option Landmark) : Except JsError Magnitude := do
  let x1 ← getX point1
  let x2 ← getX point2
  let y1 ← getY point1
  let y2 ← getY point2
  pure (Math.hypot (x1 - x2) (y1 - y2))

/-- The expression `Math.abs(p.x - q.x)`. -/
def absDiffX (p q : Option Landmark) : Except JsError ℚ := do
  let x1 ← getX p
  let x2 ← getX q
  pure (Math.abs (x1 - x2))

/-! ## The classifier -/

/-- The function `detectSignLanguageLetter(landmarks)`: an array look-up that
is out of range gives `undefined`, and the 25 tests run in source order. -/
def detectSignLanguageLetter (landmarks : List Landmark) : Except JsError String := do
  let thumbTip := landmarks[4]?
  let indexTip := landmarks[8]?
  let middleTip := landmarks[12]?
  let ringTip := landmarks[16]?
  let pinkyTip := landmarks[20]?
  -- Letter "A"
  if (← allOf [jsLt (getY thumbTip) (getY indexTip),
               jsLt (getY thumbTip) (getY middleTip),
               jsLt (getY thumbTip) (getY ringTip),
               jsLt (getY thumbTip) (getY pinkyTip)]) then return "A"
  -- Letter "B"
  if (← allOf [jsGt (getY thumbTip) (getY indexTip),
               jsGt (getY thumbTip) (getY middleTip),
               jsGt (getY thumbTip) (getY ringTip),
               jsGt (getY thumbTip) (getY pinkyTip)]) then return "B"
  -- Letter "C"
  if (← allOf [distLt (distance indexTip middleTip) (1/10),
               distLt (distance middleTip ringTip) (1/10),
               distLt (distance ringTip pinkyTip) (1/10),
               distGt (distance thumbTip indexTip) (2/10)]) then return "C"
  -- Letter "D"
  if (← allOf [jsLt (getY indexTip) (getY thumbTip),
               jsLt (getY indexTip) (getY middleTip),
               jsLt (getY indexTip) (getY ringTip),
               jsLt (getY indexTip) (getY pinkyTip)]) then return "D"
  -- Letter "E"
  if (← allOf [distLt (distance indexTip middleTip) (1/10),
               distLt (distance middleTip ringTip) (1/10),
               distLt (distance ringTip pinkyTip) (1/10),
               distLt (distance thumbTip indexTip) (1/10)]) then return "E"
  -- Letter "F"
  if (← allOf [distLt (distance thumbTip indexTip) (1/10),
               jsLt (getY middleTip) (getY ringTip),
               jsLt (getY middleTip) (getY pinkyTip)]) then return "F"
  -- Letter "G"
  if (← allOf [jsLt (getY indexTip) (getY thumbTip),
               jsLt (getY indexTip) (getY middleTip),
               jsLt (getY indexTip) (getY ringTip),
               jsLt (getY indexTip) (getY pinkyTip),
               distLt (distance thumbTip middleTip) (1/10)]) then return "G"
  -- Letter "H"
  if (← allOf [jsLt (getY indexTip) (getY thumbTip),
               jsLt (getY middleTip) (getY thumbTip),
               jsGt (getY ringTip) (getY thumbTip),
               jsGt (getY pinkyTip) (getY thumbTip)]) then return "H"
  -- Letter "I"
  if (← allOf [jsLt (getY pinkyTip) (getY thumbTip),
               jsLt (getY pinkyTip) (getY indexTip),
               jsLt (getY pinkyTip) (getY middleTip),
               jsLt (getY pinkyTip) (getY ringTip)]) then return "I"
  -- Letter "K"
  if (← allOf [jsLt (getY indexTip) (getY thumbTip),
               jsLt (getY middleTip) (getY thumbTip),
               distGt (distance indexTip middleTip) (2/10)]) then return "K"
  -- Letter "L"
  if (← allOf [jsLt (getY thumbTip) (getY middleTip),
               jsLt (getY indexTip) (getY middleTip),
               jsGt (getY middleTip) (getY ringTip),
               jsGt (getY middleTip) (getY pinkyTip)]) then return "L"
  -- Letter "M"
  if (← allOf [distLt (distance thumbTip indexTip) (1/10),
               distLt (distance indexTip middleTip) (1/10),
               distLt (distance middleTip ringTip) (1/10)]) then return "M"
  -- Letter "N"
  if (← allOf [distLt (distance thumbTip indexTip) (1/10),
               distLt (distance indexTip middleTip) (1/10),
               distGt (distance middleTip ringTip) (2/10)]) then return "N"
  -- Letter "O"
  if (← allOf [distLt (distance indexTip thumbTip) (1/10),
               distLt (distance middleTip thumbTip) (1/10),
               distLt (distance ringTip thumbTip) (1/10),
               distLt (distance pinkyTip thumbTip) (1/10)]) then return "O"
  -- Letter "P"
  if (← allOf [jsGt (getY indexTip) (getY thumbTip),
               jsGt (getY middleTip) (getY thumbTip),
               jsGt (getY ringTip) (getY thumbTip),
               jsGt (getY pinkyTip) (getY thumbTip)]) then return "P"
  -- Letter "Q"
  if (← allOf [distLt (distance thumbTip indexTip) (1/10),
               jsGt (getY middleTip) (getY thumbTip),
               jsGt (getY ringTip) (getY thumbTip),
               jsGt (getY pinkyTip) (getY thumbTip)]) then return "Q"
  -- Letter "R"
  if (← allOf [jsLt (getY indexTip) (getY thumbTip),
               jsLt (getY middleTip) (getY thumbTip),
               jsLt (absDiffX indexTip middleTip) (.ok (1/10))]) then return "R"
  -- Letter "S"
  if (← allOf [distLt (distance thumbTip indexTip) (1/10),
               distLt (distance indexTip middleTip) (1/10),
               distLt (distance middleTip ringTip) (1/10),
               distLt (distance ringTip pinkyTip) (1/10)]) then return "S"
  -- Letter "T"
  if (← allOf [distLt (distance thumbTip indexTip) (1/10),
               distLt (distance thumbTip middleTip) (1/10),
               jsGt (getY ringTip) (getY thumbTip),
               jsGt (getY pinkyTip) (getY thumbTip)]) then return "T"
  -- Letter "U"
  if (← allOf [jsLt (getY indexTip) (getY thumbTip),
               jsLt (getY middleTip) (getY thumbTip),
               distLt (distance indexTip middleTip) (1/10)]) then return "U"
  -- Letter "V"
  if (← allOf [jsLt (getY indexTip) (getY thumbTip),
               jsLt (getY middleTip) (getY thumbTip),
               distGt (distance indexTip middleTip) (2/10)]) then return "V"
  -- Letter "W"
  if (← allOf [jsLt (getY indexTip) (getY thumbTip),
               jsLt (getY middleTip) (getY thumbTip),
               jsLt (getY ringTip) (getY thumbTip),
               jsGt (getY pinkyTip) (getY thumbTip)]) then return "W"
  -- Letter "X"
  if (← allOf [jsGt (getY indexTip) (getY middleTip),
               jsLt (getY middleTip) (getY ringTip),
               jsLt (getY middleTip) (getY pinkyTip)]) then return "X"
  -- Letter "Y"
  if (← allOf [jsLt (getY thumbTip) (getY indexTip),
               jsLt (getY pinkyTip) (getY indexTip),
               jsGt (getY indexTip) (getY middleTip),
               jsGt (getY indexTip) (getY ringTip)]) then return "Y"
  -- Letter "Z"
  if (← allOf [jsLt (getY indexTip) (getY thumbTip),
               jsGt (getY middleTip) (getY thumbTip),
               jsGt (getY ringTip) (getY thumbTip),
               jsGt (getY pinkyTip) (getY thumbTip)]) then return "Z"
  -- no letter is detected
  return ""

/-! ## The cascade as an ordered list of tests -/

/-- The five fingertips the classifier reads. -/
structure Tips where
  thumb : Landmark
  index : Landmark
  middle : Landmark
  ring : Landmark
  pinky : Landmark
deriving DecidableEq

/-- The fingertips of a pose: landmarks 4, 8, 12, 16 and 20, when all exist. -/
def tips? (landmarks : List Landmark) : Option Tips := do
  let t ← landmarks[4]?
  let i ← landmarks[8]?
  let m ← landmarks[12]?
  let r ← landmarks[16]?
  let p ← landmarks[20]?
  pure ⟨t, i, m, r, p⟩

/-- Planar distance between two landmarks. -/
def dist (a b : Landmark) : Magnitude := Math.hypot (a.x - b.x) (a.y - b.y)

def isA (f : Tips) : Bool :=
  f.thumb.y < f.index.y && f.thumb.y < f.middle.y && f.thumb.y < f.ring.y && f.thumb.y < f.pinky.y

def isB (f : Tips) : Bool :=
  f.thumb.y > f.index.y && f.thumb.y > f.middle.y && f.thumb.y > f.ring.y && f.thumb.y > f.pinky.y

def isC (f : Tips) : Bool :=
  (dist f.index f.middle).lt (1/10) && (dist f.middle f.ring).lt (1/10) &&
    (dist f.ring f.pinky).lt (1/10) && (dist f.thumb f.index).gt (2/10)

def isD (f : Tips) : Bool :=
  f.index.y < f.thumb.y && f.index.y < f.middle.y && f.index.y < f.ring.y && f.index.y < f.pinky.y

def isE (f : Tips) : Bool :=
  (dist f.index f.middle).lt (1/10) && (dist f.middle f.ring).lt (1/10) &&
    (dist f.ring f.pinky).lt (1/10) && (dist f.thumb f.index).lt (1/10)

def isF (f : Tips) : Bool :=
  (dist f.thumb f.index).lt (1/10) && f.middle.y < f.ring.y && f.middle.y < f.pinky.y

def isG (f : Tips) : Bool :=
  f.index.y < f.thumb.y && f.index.y < f.middle.y && f.index.y < f.ring.y &&
    f.index.y < f.pinky.y && (dist f.thumb f.middle).lt (1/10)

def isH (f : Tips) : Bool :=
  f.index.y < f.thumb.y && f.middle.y < f.thumb.y && f.ring.y > f.thumb.y && f.pinky.y > f.thumb.y

def isI (f : Tips) : Bool :=
  f.pinky.y < f.thumb.y && f.pinky.y < f.index.y && f.pinky.y < f.middle.y && f.pinky.y < f.ring.y

def isK (f : Tips) : Bool :=
  f.index.y < f.thumb.y && f.middle.y < f.thumb.y && (dist f.index f.middle).gt (2/10)

def isL (f : Tips) : Bool :=
  f.thumb.y < f.middle.y && f.index.y < f.middle.y && f.middle.y > f.ring.y && f.middle.y > f.pinky.y

def isM (f : Tips) : Bool :=
  (dist f.thumb f.index).lt (1/10) && (dist f.index f.middle).lt (1/10) &&
    (dist f.middle f.ring).lt (1/10)

def isN (f : Tips) : Bool :=
  (dist f.thumb f.index).lt (1/10) && (dist f.index f.middle).lt (1/10) &&
    (dist f.middle f.ring).gt (2/10)

def isO (f : Tips) : Bool :=
  (dist f.index f.thumb).lt (1/10) && (dist f.middle f.thumb).lt (1/10) &&
    (dist f.ring f.thumb).lt (1/10) && (dist f.pinky f.thumb).lt (1/10)

def isP (f : Tips) : Bool :=
  f.index.y > f.thumb.y && f.middle.y > f.thumb.y && f.ring.y > f.thumb.y && f.pinky.y > f.thumb.y

def isQ (f : Tips) : Bool :=
  (dist f.thumb f.index).lt (1/10) && f.middle.y > f.thumb.y && f.ring.y > f.thumb.y &&
    f.pinky.y > f.thumb.y

def isR (f : Tips) : Bool :=
  f.index.y < f.thumb.y && f.middle.y < f.thumb.y && Math.abs (f.index.x - f.middle.x) < 1/10

def isS (f : Tips) : Bool :=
  (dist f.thumb f.index).lt (1/10) && (dist f.index f.middle).lt (1/10) &&
    (dist f.middle f.ring).lt (1/10) && (dist f.ring f.pinky).lt (1/10)

def isT (f : Tips) : Bool :=
  (dist f.thumb f.index).lt (1/10) && (dist f.thumb f.middle).lt (1/10) &&
    f.ring.y > f.thumb.y && f.pinky.y > f.thumb.y

def isU (f : Tips) : Bool :=
  f.index.y < f.thumb.y && f.middle.y < f.thumb.y && (dist f.index f.middle).lt (1/10)

def isV (f : Tips) : Bool :=
  f.index.y < f.thumb.y && f.middle.y < f.thumb.y && (dist f.index f.middle).gt (2/10)

def isW (f : Tips) : Bool :=
  f.index.y < f.thumb.y && f.middle.y < f.thumb.y && f.ring.y < f.thumb.y && f.pinky.y > f.thumb.y

def isX (f : Tips) : Bool :=
  f.index.y > f.middle.y && f.middle.y < f.ring.y && f.middle.y < f.pinky.y

def isY (f : Tips) : Bool :=
  f.thumb.y < f.index.y && f.pinky.y < f.index.y && f.index.y > f.middle.y && f.index.y > f.ring.y

def isZ (f : Tips) : Bool :=
  f.index.y < f.thumb.y && f.middle.y > f.thumb.y && f.ring.y > f.thumb.y && f.pinky.y > f.thumb.y

/-- The ordered list of (predicate, letter) pairs, in the priority order
A, B, C, D, E, F, G, H, I, K, L, M, N, O, P, Q, R, S, T, U, V, W, X, Y, Z. -/
def cascade : List ((Tips → Bool) × String) :=
  [(isA, "A"), (isB, "B"), (isC, "C"), (isD, "D"), (isE, "E"), (isF, "F"), (isG, "G"),
   (isH, "H"), (isI, "I"), (isK, "K"), (isL, "L"), (isM, "M"), (isN, "N"), (isO, "O"),
   (isP, "P"), (isQ, "Q"), (isR, "R"), (isS, "S"), (isT, "T"), (isU, "U"), (isV, "V"),
   (isW, "W"), (isX, "X"), (isY, "Y"), (isZ, "Z")]

/-- First-match evaluation of an ordered list of (predicate, result) pairs:
the result of the first pair whose predicate holds, the empty string
("no match") when none does. -/
def firstMatch : List ((Tips → Bool) × String) → Tips → String
  | [], _ => ""
  | (test, letter) :: rest, f => if test f then letter else firstMatch rest f

/-- A pose of 21 landmarks at the origin. -/
def originPose : List Landmark := List.replicate 21 ⟨0, 0⟩

/-- The pose `originPose` with its wrist landmark (index 0) moved. -/
def shiftedPose : List Landmark := ⟨1, 1⟩ :: List.replicate 20 ⟨0, 0⟩

/-! ## The game: component state, effects and events -/

/-- The `useState` cells of `SignLanguageGame` that the game logic uses.
`targetLetter` holds a string or `undefined` (`none`); `randomCalls` counts the
calls of `Math.random` made so far. -/
structure GameState where
  detectedLetter : String
  targetLetter : Option String
  score : Int
  timeLeft : Int
  isGameActive : Bool
  isLoading : Bool
  randomCalls : Nat
deriving DecidableEq

/-- The initial values given to `useState`. -/
def initialState : GameState :=
  { detectedLetter := "", targetLetter := some "", score := 0, timeLeft := 10,
    isGameActive := false, isLoading := true, randomCalls := 0 }

/-- The React state proper: two snapshots with the same cells cause no
re-render. -/
def cells (s : GameState) : String × Option String × Int × Int × Bool × Bool :=
  (s.detectedLetter, s.targetLetter, s.score, s.timeLeft, s.isGameActive, s.isLoading)

/-- The constant `letters` of `generateRandomLetter`. -/
def letters : String := "ABDEIH"

/-- The indexing `s[i]` of a JavaScript string: the one-character string at
position `i`, or `undefined` when `i` is out of range. -/
def stringAt (s : String) (i : Int) : Option String :=
  if i < 0 then none else (s.toList[i.toNat]?).map String.singleton

/-- The function `generateRandomLetter`, run while the state updates of a
commit are collected in `pending`; `random k` is the value returned by the
`k`-th call of `Math.random`. The product is taken exactly here; `randomLetter`
below gives the same draw with the product rounded to a double. -/
def generateRandomLetter (random : Nat → ℚ) (pending : GameState) : GameState :=
  let randomLetter := stringAt letters ⌊random pending.randomCalls * (letters.length : ℚ)⌋
  { pending with targetLetter := randomLetter, randomCalls := pending.randomCalls + 1 }

/-- Body of the effect "Initialize the game", dependencies `[isGameActive]`.
It reads the values `c` of the render it belongs to. -/
def initEffect (random : Nat → ℚ) (c pending : GameState) : GameState :=
  if c.isGameActive = true then generateRandomLetter random pending else pending

/-- Body of the effect "Timer logic", dependencies `[timeLeft, isGameActive]`.
In the other branch it installs the one-second interval (see `tick`). -/
def timerEffect (c pending : GameState) : GameState :=
  if c.isGameActive = false ∨ c.timeLeft = 0 then { pending with isGameActive := false }
  else pending

/-- Body of the effect that checks the detected letter against the target,
dependencies `[detectedLetter, targetLetter, isGameActive]`. -/
def matchEffect (random : Nat → ℚ) (c pending : GameState) : GameState :=
  if some c.detectedLetter = c.targetLetter ∧ c.isGameActive = true then
    let pending := { pending with score := pending.score + 1 }
    let pending := generateRandomLetter random pending
    { pending with timeLeft := 10 }
  else pending

/-- Whether an effect runs after a render: always after the first render
(`prev = none`), afterwards when one of its dependencies changed. -/
def depsChanged {α : Type} [DecidableEq α] (deps : GameState → α) (prev : Option GameState)
    (c : GameState) : Bool :=
  match prev with
  | none => true
  | some p => decide (deps p ≠ deps c)

/-- The effects of one commit, in declaration order: each effect whose
dependencies changed between the previous render `prev` and this render `c`
runs with the values of `c`, and their state updates are applied together. -/
def flushEffects (random : Nat → ℚ) (prev : Option GameState) (c : GameState) : GameState :=
  let pending := c
  let pending :=
    if depsChanged (fun s => s.isGameActive) prev c then initEffect random c pending
    else pending
  let pending :=
    if depsChanged (fun s => (s.timeLeft, s.isGameActive)) prev c then timerEffect c pending
    else pending
  let pending :=
    if depsChanged (fun s => (s.detectedLetter, s.targetLetter, s.isGameActive)) prev c then
      matchEffect random c pending
    else pending
  pending

/-- Render, run the effects and render again until the effects leave the
state as it is; `none` when `fuel` renders do not suffice. -/
def settle (random : Nat → ℚ) : Nat → Option GameState → GameState → Option GameState
  | 0, _, _ => none
  | fuel + 1, prev, c =>
    let next := flushEffects random prev c
    if cells next = cells c then some next else settle random fuel (some c) next

/-- Mounting the component: the first render and its effects. -/
def mount (random : Nat → ℚ) (fuel : Nat) : Option GameState :=
  settle random fuel none initialState

/-- The click handler `startGame`. -/
def startGame (random : Nat → ℚ) (fuel : Nat) (s : GameState) : Option GameState :=
  settle random fuel (some s) { s with isLoading := false, isGameActive := true }

/-- The interval callback `setTimeLeft((prevTime) => prevTime - 1)`. The
interval exists only while the last run of the timer effect installed it,
that is while the game is active and `timeLeft` is not 0. -/
def tick (random : Nat → ℚ) (fuel : Nat) (s : GameState) : Option GameState :=
  if s.isGameActive = true ∧ s.timeLeft ≠ 0 then
    settle random fuel (some s) { s with timeLeft := s.timeLeft - 1 }
  else some s

/-- The call `setDetectedLetter(letter)` made for a classified frame. -/
def setDetectedLetter (random : Nat → ℚ) (fuel : Nat) (letter : String) (s : GameState) :
    Option GameState :=
  settle random fuel (some s) { s with detectedLetter := letter }

/-- A number of consecutive ticks. -/
def ticks (random : Nat → ℚ) (fuel : Nat) : Nat → GameState → Option GameState
  | 0, s => some s
  | n + 1, s => (tick random fuel s).bind (ticks random fuel n)

/-- The phases of the game. -/
inductive Phase where
  | Idle
  | Active
  | Over
deriving DecidableEq

/-- The phase shown by the component: the loading screen with the start
button while `isLoading`, the running game while `isGameActive`, and the
"Game Over" message otherwise. -/
def phase (s : GameState) : Phase :=
  if s.isGameActive = true then .Active else if s.isLoading = true then .Idle else .Over

/-- The external events of the component. -/
inductive Event where
  | start
  | tick
  | detected (letter : String)

/-- One event applied to a settled state. The start button is rendered only
while `isLoading`; the detection callback is registered once the game has
been started. -/
def step (random : Nat → ℚ) (fuel : Nat) (e : Event) (s : GameState) : Option GameState :=
  match e with
  | .start => if s.isLoading = true then startGame random fuel s else some s
  | .tick => tick random fuel s
  | .detected letter => if s.isLoading = true then some s else setDetectedLetter random fuel letter s

/-- The states the component can reach from its initial state. -/
inductive Reachable (random : Nat → ℚ) (fuel : Nat) : GameState → Prop where
  | init : Reachable random fuel initialState
  | step (e : Event) (s t : GameState) : Reachable random fuel s →
      step random fuel e s = some t → Reachable random fuel t

/-- What every reachable state satisfies: `timeLeft` stays within 0..10, an
active game has time left and has left the loading screen, and the loading
screen is shown only in the initial state. -/
def Invariant (s : GameState) : Prop :=
  0 ≤ s.timeLeft ∧ s.timeLeft ≤ 10 ∧
    (s.isGameActive = true → 0 < s.timeLeft ∧ s.isLoading = false) ∧
    (s.isLoading = true → s = initialState)

/-- A random source that always returns 0, so that every draw is "A". -/
def zeroRandom : Nat → ℚ := fun _ => 0

/-- The state after the game was started, under `zeroRandom`. -/
def startedA : GameState :=
  { detectedLetter := "", targetLetter := some "A", score := 1, timeLeft := 10,
    isGameActive := true, isLoading := false, randomCalls := 2 }

/-- The state after the game was started and "A" was detected, under `zeroRandom`. -/
def heldA : GameState :=
  { detectedLetter := "A", targetLetter := some "A", score := 2, timeLeft := 10,
    isGameActive := true, isLoading := false, randomCalls := 3 }

/-! ## The random draw in double arithmetic -/

/-- Rounding of a rational to the nearest integer, a tie going to the even
one. -/
def roundHalfEven (m : ℚ) : Int :=
  if m - ⌊m⌋ < 1/2 then ⌊m⌋
  else if 1/2 < m - ⌊m⌋ then ⌊m⌋ + 1
  else if ⌊m⌋ % 2 = 0 then ⌊m⌋ else ⌊m⌋ + 1

/-- The spacing of the IEEE 754 doubles around `q`: 2^(e - 52) for
2^e ≤ |q| < 2^(e + 1), and the subnormal spacing 2^(-1074) below
2^(-1022). -/
def ulp (q : ℚ) : ℚ := (2 : ℚ) ^ (max (Int.log 2 |q|) (-1022) - 52)

/-- The double nearest to `q` (round to nearest, ties to even), for `q` below
the overflow threshold. -/
def roundDouble (q : ℚ) : ℚ := roundHalfEven (q / ulp q) * ulp q

/-- The product `a * b` of two doubles as JavaScript computes it: the exact
product rounded to the nearest double. -/
def jsMul (a b : ℚ) : ℚ := roundDouble (a * b)

/-- The index `Math.floor(Math.random() * letters.length)` of
`generateRandomLetter` for the random value `r`, with the product rounded to a
double. -/
def randomLetterIndex (r : ℚ) : Int := ⌊jsMul r (letters.length : ℚ)⌋

/-- The value `randomLetter` of `generateRandomLetter` for the random value
`r`, with the product rounded to a double. -/
def randomLetter (r : ℚ) : Option String := stringAt letters (randomLetterIndex r)

/-- The double printed as 0.8333333333333333, the largest double below 5/6. -/
def belowFiveSixths : ℚ := 7505999378950826 / 2 ^ 53

/-- The initial state with 3 in place of the initial 10 seconds. -/
def lateStart : GameState := { initialState with timeLeft := 3 }

/-- The state after the game was started and ten ticks were applied, under
`zeroRandom`. -/
def overA : GameState :=
  { detectedLetter := "", targetLetter := some "A", score := 1, timeLeft := 0,
    isGameActive := false, isLoading := false, randomCalls := 2 }

/-- The render that follows the click on the start button in the initial
state: the values the effects of that commit read. -/
def startRender : GameState := { initialState with isLoading := false, isGameActive := true }

/-- A sequence of events applied one after the other. -/
def run (random : Nat → ℚ) (fuel : Nat) : List Event → GameState → Option GameState
  | [], s => some s
  | e :: es, s => (step random fuel e s).bind (run random fuel es)

/-- What every reachable state that has left the loading screen satisfies,
for a random source with values in [0, 1): the target is one of the six
letters, and a game that is not active has no time left. -/
def StartedInvariant (s : GameState) : Prop :=
  s.isLoading = false →
    s.targetLetter ∈ [some "A", some "B", some "D", some "E", some "I", some "H"] ∧
    (s.isGameActive = false → s.timeLeft = 0)

/-- A pose of 21 landmarks with the given fingertips at indices 4, 8, 12, 16
and 20 and every other landmark at the centre of the frame. -/
def poseOf (t i m r p : Landmark) : List Landmark :=
  let c : Landmark := ⟨1/2, 1/2⟩
  [c, c, c, c, t, c, c, c, i, c, c, c, m, c, c, c, r, c, c, c, p]

/-- A landmark with both coordinates in [0, 1]. -/
def inFrame (l : Landmark) : Prop := 0 ≤ l.x ∧ l.x ≤ 1 ∧ 0 ≤ l.y ∧ l.y ≤ 1

/-- Thumb tip above the four other fingertips. -/
def poseA : List Landmark :=
  poseOf ⟨1/2, 1/10⟩ ⟨1/2, 1/2⟩ ⟨1/2, 1/2⟩ ⟨1/2, 1/2⟩ ⟨1/2, 1/2⟩

/-- Thumb tip below the four other fingertips. -/
def poseB : List Landmark :=
  poseOf ⟨1/2, 9/10⟩ ⟨1/2, 1/2⟩ ⟨1/2, 1/2⟩ ⟨1/2, 1/2⟩ ⟨1/2, 1/2⟩

/-- Index tip highest, thumb tip above the middle, ring and pinky tips. -/
def poseD : List Landmark :=
  poseOf ⟨1/2, 1/2⟩ ⟨1/2, 1/10⟩ ⟨1/2, 3/5⟩ ⟨1/2, 3/5⟩ ⟨1/2, 3/5⟩

/-- All five fingertips at the same point. -/
def poseE : List Landmark :=
  poseOf ⟨1/2, 1/2⟩ ⟨1/2, 1/2⟩ ⟨1/2, 1/2⟩ ⟨1/2, 1/2⟩ ⟨1/2, 1/2⟩

/-- Index and middle tips above the thumb tip, ring and pinky tips below it. -/
def poseH : List Landmark :=
  poseOf ⟨1/2, 1/2⟩ ⟨1/2, 1/5⟩ ⟨1/2, 1/5⟩ ⟨1/2, 4/5⟩ ⟨1/2, 4/5⟩

/-- Pinky tip highest, the other four fingertips at the same point. -/
def poseI : List Landmark :=
  poseOf ⟨1/2, 1/2⟩ ⟨1/2, 1/2⟩ ⟨1/2, 1/2⟩ ⟨1/2, 1/2⟩ ⟨1/2, 1/5⟩

/-! ## Lemmas on the classifier -/

theorem getY_some (l : Landmark) : getY (some l) = .ok l.y := rfl

theorem getX_some (l : Landmark) : getX (some l) = .ok l.x := rfl

theorem jsLt_ok (u v : ℚ) : jsLt (.ok u) (.ok v) = .ok (decide (u < v)) := rfl

theorem jsGt_ok (u v : ℚ) : jsGt (.ok u) (.ok v) = .ok (decide (v < u)) := rfl

theorem distance_some (a b : Landmark) : distance (some a) (some b) = .ok (dist a b) := rfl

theorem distLt_ok (m : Magnitude) (c : ℚ) : distLt (.ok m) c = .ok (m.lt c) := rfl

theorem distGt_ok (m : Magnitude) (c : ℚ) : distGt (.ok m) c = .ok (m.gt c) := rfl

theorem absDiffX_some (a b : Landmark) :
    absDiffX (some a) (some b) = .ok (Math.abs (a.x - b.x)) := rfl

theorem allOf_nil : allOf [] = .ok true := rfl

theorem allOf_cons_ok (b : Bool) (cs : List (Except JsError Bool)) :
    allOf (.ok b :: cs) = if b then allOf cs else .ok false := by
  cases b <;> rfl

theorem allOf_ok3 (a b c : Bool) : allOf [.ok a, .ok b, .ok c] = .ok (a && b && c) := by
  cases a <;> cases b <;> cases c <;> rfl

theorem allOf_ok4 (a b c d : Bool) :
    allOf [.ok a, .ok b, .ok c, .ok d] = .ok (a && b && c && d) := by
  cases a <;> cases b <;> cases c <;> cases d <;> rfl

theorem allOf_ok5 (a b c d e : Bool) :
    allOf [.ok a, .ok b, .ok c, .ok d, .ok e] = .ok (a && b && c && d && e) := by
  cases a <;> cases b <;> cases c <;> cases d <;> cases e <;> rfl

theorem bind_ok {α β : Type} (a : α) (f : α → Except JsError β) :
    (Except.ok a >>= f) = f a := rfl

theorem detect_of_tips (landmarks : List Landmark) (t i m r p : Landmark)
    (h4 : landmarks[4]? = some t) (h8 : landmarks[8]? = some i)
    (h12 : landmarks[12]? = some m) (h16 : landmarks[16]? = some r)
    (h20 : landmarks[20]? = some p) :
    detectSignLanguageLetter landmarks = .ok (firstMatch cascade ⟨t, i, m, r, p⟩) := by
  simp only [detectSignLanguageLetter, h4, h8, h12, h16, h20, getY_some, getX_some, jsLt_ok,
    jsGt_ok, distance_some, distLt_ok, distGt_ok, absDiffX_some, allOf_ok3, allOf_ok4, allOf_ok5, bind_ok]
  simp only [pure_bind, firstMatch, cascade, isA, isB, isC, isD, isE, isF, isG, isH, isI, isK, isL,
    isM, isN, isO, isP, isQ, isR, isS, isT, isU, isV, isW, isX, isY, isZ, apply_ite Except.ok]
  rfl

theorem tips_of_length (landmarks : List Landmark) (h : landmarks.length = 21) :
    ∃ f, tips? landmarks = some f ∧
      detectSignLanguageLetter landmarks = .ok (firstMatch cascade f) := by
  have h4 : landmarks[4]? = some landmarks[4] := List.getElem?_eq_getElem (by omega)
  have h8 : landmarks[8]? = some landmarks[8] := List.getElem?_eq_getElem (by omega)
  have h12 : landmarks[12]? = some landmarks[12] := List.getElem?_eq_getElem (by omega)
  have h16 : landmarks[16]? = some landmarks[16] := List.getElem?_eq_getElem (by omega)
  have h20 : landmarks[20]? = some landmarks[20] := List.getElem?_eq_getElem (by omega)
  refine ⟨⟨landmarks[4], landmarks[8], landmarks[12], landmarks[16], landmarks[20]⟩, ?_,
    detect_of_tips landmarks _ _ _ _ _ h4 h8 h12 h16 h20⟩
  simp [tips?, h4, h8, h12, h16, h20]


theorem firstMatch_mem (l : List ((Tips → Bool) × String)) (f : Tips) :
    firstMatch l f = "" ∨ firstMatch l f ∈ l.map Prod.snd := by
  induction l with
  | nil => exact Or.inl rfl
  | cons q rest ih =>
    obtain ⟨test, letter⟩ := q
    by_cases hq : test f = true
    · right; simp [firstMatch, hq]
    · rcases ih with h | h
      · left; simp [firstMatch, hq, h]
      · right; simp only [firstMatch, hq]; simp [h]

theorem firstMatch_append (pre post : List ((Tips → Bool) × String)) (f : Tips)
    (hpre : ∀ q ∈ pre, q.1 f = false) : firstMatch (pre ++ post) f = firstMatch post f := by
  induction pre with
  | nil => rfl
  | cons q rest ih =>
    obtain ⟨test, letter⟩ := q
    have h1 : test f = false := hpre (test, letter) (List.mem_cons_self _ _)
    have h2 : ∀ q ∈ rest, q.1 f = false := fun q hq => hpre q (List.mem_cons_of_mem _ hq)
    simp [firstMatch, h1, ih h2]

theorem firstMatch_eq_empty (l : List ((Tips → Bool) × String)) (f : Tips)
    (hl : ∀ q ∈ l, q.2 ≠ "") : firstMatch l f = "" ↔ ∀ q ∈ l, q.1 f = false := by
  induction l with
  | nil => simp [firstMatch]
  | cons q rest ih =>
    obtain ⟨test, letter⟩ := q
    have h1 : letter ≠ "" := hl (test, letter) (List.mem_cons_self _ _)
    have h2 : ∀ q ∈ rest, q.2 ≠ "" := fun q hq => hl q (List.mem_cons_of_mem _ hq)
    by_cases hq : test f = true
    · simp [firstMatch, hq, h1]
    · simp [firstMatch, hq, ih h2]

theorem cascade_letters :
    cascade.map Prod.snd =
      ["A", "B", "C", "D", "E", "F", "G", "H", "I", "K", "L", "M", "N", "O", "P", "Q", "R", "S",
       "T", "U", "V", "W", "X", "Y", "Z"] := rfl

theorem cascade_letters_ne_empty : ∀ q ∈ cascade, q.2 ≠ "" := by
  intro q hq
  have h : q.2 ∈ cascade.map Prod.snd := List.mem_map_of_mem _ hq
  rw [cascade_letters] at h
  intro h0
  rw [h0] at h
  revert h
  decide


theorem firstMatch_cons (test : Tips → Bool) (letter : String)
    (rest : List ((Tips → Bool) × String)) (f : Tips) :
    firstMatch ((test, letter) :: rest) f = if test f then letter else firstMatch rest f := rfl

/-- In a list whose letters left and right of an entry differ from the entry's
letter, first-match returns that letter exactly when the entry is the first one
whose test holds. -/
theorem firstMatch_eq_iff (pre post : List ((Tips → Bool) × String)) (test : Tips → Bool)
    (letter : String) (f : Tips) (h0 : letter ≠ "")
    (hpre : letter ∉ pre.map Prod.snd) (hpost : letter ∉ post.map Prod.snd) :
    firstMatch (pre ++ (test, letter) :: post) f = letter ↔
      (∀ q ∈ pre, q.1 f = false) ∧ test f = true := by
  induction pre with
  | nil =>
    have hne : firstMatch post f ≠ letter := by
      intro h
      rcases firstMatch_mem post f with h1 | h1
      · exact h0 (h ▸ h1)
      · exact hpost (h ▸ h1)
    by_cases ht : test f = true
    · simp [firstMatch_cons, ht]
    · simp [firstMatch_cons, ht, hne]
  | cons q rest ih =>
    obtain ⟨t, l⟩ := q
    have hl : l ≠ letter := by
      intro h
      apply hpre
      simp [h]
    have hrest : letter ∉ rest.map Prod.snd := by
      intro h
      apply hpre
      simp only [List.map_cons, List.mem_cons]
      exact Or.inr h
    by_cases ht : t f = true
    · simp [firstMatch_cons, ht, hl]
    · simp [firstMatch_cons, ht, ih hrest]

theorem cascade_split_V :
    cascade = cascade.take 20 ++ (isV, "V") :: cascade.drop 21 := rfl

theorem firstMatch_cascade_ne_V (f : Tips) : firstMatch cascade f ≠ "V" := by
  intro h
  rw [cascade_split_V] at h
  have h2 := (firstMatch_eq_iff _ _ _ _ f (by decide) (by decide) (by decide)).mp h
  have hK : isK f = false := h2.1 (isK, "K") (by simp [cascade])
  have hV : isK f = true := h2.2
  rw [hK] at hV
  exact Bool.noConfusion hV

theorem cascade_split_U :
    cascade = cascade.take 19 ++ (isU, "U") :: cascade.drop 20 := rfl

/-- The U-condition and the V-condition exclude each other: the distance
between the index and middle tips cannot be below 0.1 and above 0.2. -/
theorem isU_isV_exclusive (f : Tips) : (isU f && isV f) = false := by
  rw [Bool.eq_false_iff]
  intro h
  simp only [isU, isV, Magnitude.lt, Magnitude.gt, Bool.and_eq_true, decide_eq_true_eq] at h
  obtain ⟨⟨_, _, hlt⟩, _, hgt⟩ := h
  rcases hgt with hneg | hgt
  · norm_num at hneg
  · norm_num at hlt hgt
    linarith

theorem cascade_split_A : cascade = [] ++ (isA, "A") :: cascade.drop 1 := rfl

theorem cascade_split_B : cascade = cascade.take 1 ++ (isB, "B") :: cascade.drop 2 := rfl

theorem firstMatch_cascade_A (f : Tips) : firstMatch cascade f = "A" ↔ isA f = true := by
  rw [cascade_split_A, firstMatch_eq_iff _ _ _ _ f (by decide) (by decide) (by decide)]
  simp

theorem firstMatch_cascade_B (f : Tips) :
    firstMatch cascade f = "B" ↔ isA f = false ∧ isB f = true := by
  rw [cascade_split_B, firstMatch_eq_iff _ _ _ _ f (by decide) (by decide) (by decide)]
  simp [cascade]


/-! ## Properties of the classifier -/

/-- C1: on every pose of 21 landmarks `detectSignLanguageLetter` equals the
first-match evaluation of the ordered (predicate, letter) list whose letters
are A, B, C, D, E, F, G, H, I, K, L, M, N, O, P, Q, R, S, T, U, V, W, X, Y, Z:
it returns the letter of the first predicate that holds, and the empty string
exactly when none of the 25 predicates holds. -/
theorem detect_first_match (landmarks : List Landmark) (h : landmarks.length = 21) :
    cascade.map Prod.snd =
        ["A", "B", "C", "D", "E", "F", "G", "H", "I", "K", "L", "M", "N", "O", "P", "Q", "R",
         "S", "T", "U", "V", "W", "X", "Y", "Z"] ∧
    ∃ f, tips? landmarks = some f ∧
      detectSignLanguageLetter landmarks = .ok (firstMatch cascade f) ∧
      (∀ pre test letter post, cascade = pre ++ (test, letter) :: post →
        (∀ q ∈ pre, q.1 f = false) → test f = true →
        detectSignLanguageLetter landmarks = .ok letter) ∧
      (detectSignLanguageLetter landmarks = .ok "" ↔ ∀ q ∈ cascade, q.1 f = false) := by
  obtain ⟨f, hf, hd⟩ := tips_of_length landmarks h
  refine ⟨cascade_letters, f, hf, hd, ?_, ?_⟩
  · intro pre test letter post hsplit hpre htest
    rw [hd, hsplit, firstMatch_append pre _ f hpre, firstMatch_cons, htest]
    rfl
  · rw [hd, Except.ok.injEq]
    exact firstMatch_eq_empty cascade f cascade_letters_ne_empty

theorem detect_first_match_witness :
    originPose.length = 21 ∧
    (cascade.map Prod.snd =
        ["A", "B", "C", "D", "E", "F", "G", "H", "I", "K", "L", "M", "N", "O", "P", "Q", "R",
         "S", "T", "U", "V", "W", "X", "Y", "Z"] ∧
    ∃ f, tips? originPose = some f ∧
      detectSignLanguageLetter originPose = .ok (firstMatch cascade f) ∧
      (∀ pre test letter post, cascade = pre ++ (test, letter) :: post →
        (∀ q ∈ pre, q.1 f = false) → test f = true →
        detectSignLanguageLetter originPose = .ok letter) ∧
      (detectSignLanguageLetter originPose = .ok "" ↔ ∀ q ∈ cascade, q.1 f = false)) :=
  ⟨rfl, detect_first_match originPose rfl⟩

/-- C2: on every pose of 21 landmarks the classifier returns "A" exactly when
the thumb tip's y is strictly below the y of the index, middle, ring and pinky
tips, and "B" exactly when it is strictly above all four. -/
theorem detect_A_B_iff (landmarks : List Landmark) (h : landmarks.length = 21) :
    (detectSignLanguageLetter landmarks = .ok "A" ↔
      landmarks[4].y < landmarks[8].y ∧ landmarks[4].y < landmarks[12].y ∧
        landmarks[4].y < landmarks[16].y ∧ landmarks[4].y < landmarks[20].y) ∧
    (detectSignLanguageLetter landmarks = .ok "B" ↔
      landmarks[4].y > landmarks[8].y ∧ landmarks[4].y > landmarks[12].y ∧
        landmarks[4].y > landmarks[16].y ∧ landmarks[4].y > landmarks[20].y) := by
  have hd := detect_of_tips landmarks landmarks[4] landmarks[8] landmarks[12] landmarks[16]
    landmarks[20] (List.getElem?_eq_getElem _) (List.getElem?_eq_getElem _)
    (List.getElem?_eq_getElem _) (List.getElem?_eq_getElem _) (List.getElem?_eq_getElem _)
  rw [hd, Except.ok.injEq, Except.ok.injEq, firstMatch_cascade_A, firstMatch_cascade_B]
  constructor
  · simp only [isA, Bool.and_eq_true, decide_eq_true_eq, and_assoc]
  · constructor
    · intro hb
      simpa only [isB, Bool.and_eq_true, decide_eq_true_eq, and_assoc] using hb.2
    · intro hb
      constructor
      · rw [Bool.eq_false_iff]
        intro ha
        simp only [isA, Bool.and_eq_true, decide_eq_true_eq] at ha
        exact lt_asymm ha.1.1.1 hb.1
      · simpa only [isB, Bool.and_eq_true, decide_eq_true_eq, and_assoc] using hb

theorem detect_A_B_iff_witness :
    originPose.length = 21 ∧
    ((detectSignLanguageLetter originPose = .ok "A" ↔
      originPose[4].y < originPose[8].y ∧ originPose[4].y < originPose[12].y ∧
        originPose[4].y < originPose[16].y ∧ originPose[4].y < originPose[20].y) ∧
    (detectSignLanguageLetter originPose = .ok "B" ↔
      originPose[4].y > originPose[8].y ∧ originPose[4].y > originPose[12].y ∧
        originPose[4].y > originPose[16].y ∧ originPose[4].y > originPose[20].y)) :=
  ⟨rfl, detect_A_B_iff originPose rfl⟩

/-- C4: the predicate tested for "V" is the predicate tested for the earlier
letter "K", and on every pose of 21 landmarks the classifier never returns
"V". -/
theorem detect_never_V (landmarks : List Landmark) (h : landmarks.length = 21) :
    isV = isK ∧
    (∀ f : Tips, isK f = (decide (f.index.y < f.thumb.y) && decide (f.middle.y < f.thumb.y) &&
        (dist f.index f.middle).gt (2/10))) ∧
    detectSignLanguageLetter landmarks ≠ .ok "V" := by
  obtain ⟨f, _, hd⟩ := tips_of_length landmarks h
  refine ⟨rfl, fun _ => rfl, ?_⟩
  rw [hd, ne_eq, Except.ok.injEq]
  exact firstMatch_cascade_ne_V f

theorem detect_never_V_witness :
    originPose.length = 21 ∧
    (isV = isK ∧
    (∀ f : Tips, isK f = (decide (f.index.y < f.thumb.y) && decide (f.middle.y < f.thumb.y) &&
        (dist f.index f.middle).gt (2/10))) ∧
    detectSignLanguageLetter originPose ≠ .ok "V") :=
  ⟨rfl, detect_never_V originPose rfl⟩

/-- C5: the classifier reads only the landmarks at indices 4, 8, 12, 16 and
20: two poses (of 21 landmarks, or of any length) that agree there get the
same result, whatever their other landmarks are. -/
theorem detect_reads_only_fingertips (landmarks landmarks2 : List Landmark)
    (h4 : landmarks[4]? = landmarks2[4]?) (h8 : landmarks[8]? = landmarks2[8]?)
    (h12 : landmarks[12]? = landmarks2[12]?) (h16 : landmarks[16]? = landmarks2[16]?)
    (h20 : landmarks[20]? = landmarks2[20]?) :
    detectSignLanguageLetter landmarks = detectSignLanguageLetter landmarks2 := by
  simp only [detectSignLanguageLetter, h4, h8, h12, h16, h20]

theorem detect_reads_only_fingertips_witness :
    originPose.length = 21 ∧ shiftedPose.length = 21 ∧ originPose ≠ shiftedPose ∧
    detectSignLanguageLetter originPose = detectSignLanguageLetter shiftedPose :=
  ⟨rfl, rfl, by simp [originPose, shiftedPose, List.replicate],
    detect_reads_only_fingertips originPose shiftedPose rfl rfl rfl rfl rfl⟩

/-- C6: on every pose of 21 landmarks the five look-ups at indices 4, 8, 12,
16 and 20 succeed, the classifier returns without raising an error, and its
result is the empty string or one of the 25 letters (never "J"). -/
theorem detect_total (landmarks : List Landmark) (h : landmarks.length = 21) :
    (landmarks[4]?).isSome = true ∧ (landmarks[8]?).isSome = true ∧
    (landmarks[12]?).isSome = true ∧ (landmarks[16]?).isSome = true ∧
    (landmarks[20]?).isSome = true ∧
    ∃ s, detectSignLanguageLetter landmarks = .ok s ∧ s ≠ "J" ∧
      s ∈ ["", "A", "B", "C", "D", "E", "F", "G", "H", "I", "K", "L", "M", "N", "O", "P", "Q",
           "R", "S", "T", "U", "V", "W", "X", "Y", "Z"] := by
  obtain ⟨f, _, hd⟩ := tips_of_length landmarks h
  have hmem : firstMatch cascade f ∈
      ["", "A", "B", "C", "D", "E", "F", "G", "H", "I", "K", "L", "M", "N", "O", "P", "Q",
       "R", "S", "T", "U", "V", "W", "X", "Y", "Z"] := by
    rcases firstMatch_mem cascade f with h0 | h1
    · rw [h0]; exact List.mem_cons_self _ _
    · rw [cascade_letters] at h1
      exact List.mem_cons_of_mem _ h1
  refine ⟨?_, ?_, ?_, ?_, ?_, firstMatch cascade f, hd, ?_, hmem⟩
  · rw [List.getElem?_eq_getElem (by omega)]; rfl
  · rw [List.getElem?_eq_getElem (by omega)]; rfl
  · rw [List.getElem?_eq_getElem (by omega)]; rfl
  · rw [List.getElem?_eq_getElem (by omega)]; rfl
  · rw [List.getElem?_eq_getElem (by omega)]; rfl
  · intro hJ
    rw [hJ] at hmem
    revert hmem
    decide

theorem detect_total_witness :
    originPose.length = 21 ∧
    ((originPose[4]?).isSome = true ∧ (originPose[8]?).isSome = true ∧
    (originPose[12]?).isSome = true ∧ (originPose[16]?).isSome = true ∧
    (originPose[20]?).isSome = true ∧
    ∃ s, detectSignLanguageLetter originPose = .ok s ∧ s ≠ "J" ∧
      s ∈ ["", "A", "B", "C", "D", "E", "F", "G", "H", "I", "K", "L", "M", "N", "O", "P", "Q",
           "R", "S", "T", "U", "V", "W", "X", "Y", "Z"]) :=
  ⟨rfl, detect_total originPose rfl⟩


/-! ## Lemmas on the game -/

theorem settle_mono (random : Nat → ℚ) (fuel k : Nat) (prev : Option GameState)
    (c t : GameState) (h : settle random fuel prev c = some t) :
    settle random (fuel + k) prev c = some t := by
  induction fuel generalizing prev c with
  | zero => simp [settle] at h
  | succ n ih =>
    rw [Nat.add_right_comm]
    simp only [settle] at h ⊢
    split_ifs at h ⊢ with hc
    · exact h
    · exact ih _ _ h

theorem mount_eq (random : Nat → ℚ) (fuel : Nat) :
    mount random (fuel + 1) = some initialState := rfl

theorem stringAt_letters_ne_empty (i : Int) : stringAt letters i ≠ some "" := by
  unfold stringAt
  split_ifs
  · simp
  · cases letters.toList[i.toNat]? with
    | none => simp
    | some c =>
      simp only [Option.map_some', ne_eq, Option.some.injEq]
      intro h
      have := congrArg String.length h
      simp at this

theorem stringAt_letters_mem (r : ℚ) (h0 : 0 ≤ r) (h1 : r < 1) :
    stringAt letters ⌊r * (letters.length : ℚ)⌋ ∈
      [some "A", some "B", some "D", some "E", some "I", some "H"] := by
  have hlen : (letters.length : ℚ) = 6 := by
    have : letters.length = 6 := rfl
    rw [this]; norm_num
  rw [hlen]
  have hlo : (0 : Int) ≤ ⌊r * 6⌋ := Int.floor_nonneg.mpr (by linarith)
  have hhi : ⌊r * 6⌋ < 6 := by
    rw [Int.floor_lt]
    push_cast
    linarith
  generalize ⌊r * 6⌋ = k at hlo hhi
  interval_cases k <;> decide

theorem settle_detect_nomatch (random : Nat → ℚ) (fuel : Nat) (letter : String) (s : GameState)
    (h : ¬ (letter ≠ s.detectedLetter ∧ some letter = s.targetLetter ∧ s.isGameActive = true)) :
    settle random (fuel + 1) (some s) { s with detectedLetter := letter } =
      some { s with detectedLetter := letter } := by
  by_cases hd : letter = s.detectedLetter
  · simp [settle, flushEffects, depsChanged, hd]
  · have h2 : ¬ (some letter = s.targetLetter ∧ s.isGameActive = true) := fun h3 => h ⟨hd, h3⟩
    simp [settle, flushEffects, depsChanged, matchEffect, h2]

theorem settle_detect_match (random : Nat → ℚ) (fuel : Nat) (letter : String) (s : GameState)
    (hd : letter ≠ s.detectedLetter) (ht : some letter = s.targetLetter)
    (ha : s.isGameActive = true) :
    settle random (fuel + 2) (some s) { s with detectedLetter := letter } =
      some { detectedLetter := letter,
             targetLetter := stringAt letters ⌊random s.randomCalls * (letters.length : ℚ)⌋,
             score := s.score + 1, timeLeft := 10, isGameActive := true,
             isLoading := s.isLoading, randomCalls := s.randomCalls + 1 } := by
  have hd2 : ¬ s.detectedLetter = letter := fun h => hd h.symm
  by_cases hn : stringAt letters ⌊random s.randomCalls * (letters.length : ℚ)⌋ = some letter
  · simp [settle, flushEffects, depsChanged, matchEffect, timerEffect, generateRandomLetter,
      cells, hd2, ← ht, ha, hn]
  · simp [settle, flushEffects, depsChanged, matchEffect, timerEffect, generateRandomLetter,
      cells, hd2, ← ht, ha, hn, Ne.symm hn]

theorem settle_tick (random : Nat → ℚ) (fuel : Nat) (s : GameState)
    (ha : s.isGameActive = true) :
    settle random (fuel + 2) (some s) { s with timeLeft := s.timeLeft - 1 } =
      some { s with timeLeft := s.timeLeft - 1,
                    isGameActive := decide (s.timeLeft - 1 ≠ 0) } := by
  by_cases h0 : s.timeLeft - 1 = 0
  · have h1 : s.timeLeft = 1 := by omega
    simp [settle, flushEffects, depsChanged, matchEffect, timerEffect, initEffect, cells, ha, h1]
  · have hne : ¬ s.timeLeft = s.timeLeft - 1 := by omega
    simp [settle, flushEffects, depsChanged, matchEffect, timerEffect, initEffect, cells, ha, h0,
      hne]

theorem settle_start_initial (random : Nat → ℚ) (fuel : Nat) :
    settle random (fuel + 2) (some initialState)
        { initialState with isLoading := false, isGameActive := true } =
      some { detectedLetter := "",
             targetLetter := stringAt letters ⌊random 1 * (letters.length : ℚ)⌋,
             score := 1, timeLeft := 10, isGameActive := true, isLoading := false,
             randomCalls := 2 } := by
  have hne := stringAt_letters_ne_empty ⌊random 1 * (letters.length : ℚ)⌋
  simp [settle, flushEffects, depsChanged, matchEffect, timerEffect, initEffect,
    generateRandomLetter, cells, initialState, hne, Ne.symm hne]

theorem tick_active (random : Nat → ℚ) (fuel : Nat) (s : GameState)
    (ha : s.isGameActive = true) (h0 : s.timeLeft ≠ 0) :
    tick random (fuel + 2) s =
      some { s with timeLeft := s.timeLeft - 1,
                    isGameActive := decide (s.timeLeft - 1 ≠ 0) } := by
  unfold tick
  rw [if_pos ⟨ha, h0⟩]
  exact settle_tick random fuel s ha

theorem tick_stopped (random : Nat → ℚ) (fuel : Nat) (s : GameState)
    (h : ¬ (s.isGameActive = true ∧ s.timeLeft ≠ 0)) : tick random fuel s = some s := by
  unfold tick
  rw [if_neg h]

theorem ticks_eq (random : Nat → ℚ) (fuel : Nat) (n : Nat) (s : GameState)
    (h0 : 0 ≤ s.timeLeft) (ha : s.isGameActive = true ↔ 0 < s.timeLeft) :
    ticks random (fuel + 2) n s =
      some { s with timeLeft := max (s.timeLeft - n) 0,
                    isGameActive := decide (0 < s.timeLeft - n) } := by
  induction n generalizing s with
  | zero =>
    obtain ⟨d, t, sc, tl, act, ld, rc⟩ := s
    simp only [ticks, Nat.cast_zero, sub_zero, Option.some.injEq, GameState.mk.injEq, true_and]
    simp only at h0 ha
    refine ⟨(max_eq_left h0).symm, ?_⟩
    cases act <;> simp_all
  | succ n ih =>
    by_cases hact : s.isGameActive = true
    · have hpos : 0 < s.timeLeft := ha.mp hact
      have hne : s.timeLeft ≠ 0 := ne_of_gt hpos
      simp only [ticks, tick_active random fuel s hact hne, Option.some_bind]
      rw [ih]
      · simp only [Nat.cast_add, Nat.cast_one, Option.some.injEq, GameState.mk.injEq, true_and,
          and_true]
        refine ⟨by congr 1; ring, ?_⟩
        congr 1
        apply propext
        constructor <;> intro h <;> linarith
      · show 0 ≤ s.timeLeft - 1
        omega
      · show decide (s.timeLeft - 1 ≠ 0) = true ↔ 0 < s.timeLeft - 1
        simp only [decide_eq_true_eq]
        omega
    · have hz : s.timeLeft = 0 := by
        have : ¬ 0 < s.timeLeft := fun h => hact (ha.mpr h)
        omega
      simp only [ticks, tick_stopped random (fuel + 2) s (fun h => hact h.1), Option.some_bind]
      rw [ih s h0 ha]
      simp only [Nat.cast_add, Nat.cast_one, Option.some.injEq, GameState.mk.injEq, true_and,
        and_true, hz]
      refine ⟨?_, ?_⟩
      · rw [max_eq_right (by omega), max_eq_right (by omega)]
      · have h1 : ¬ (0 : Int) < 0 - (n : Int) := by omega
        have h2 : ¬ (0 : Int) < 0 - ((n : Int) + 1) := by omega
        rw [decide_eq_false h1, decide_eq_false h2]

theorem step_start_zeroRandom (fuel : Nat) :
    step zeroRandom (fuel + 2) .start initialState = some startedA := by
  have h : stringAt letters ⌊zeroRandom 1 * (letters.length : ℚ)⌋ = some "A" := by
    simp only [zeroRandom, zero_mul, Int.floor_zero]
    decide
  show (if initialState.isLoading = true then startGame zeroRandom (fuel + 2) initialState
    else some initialState) = some startedA
  have hl : initialState.isLoading = true := rfl
  rw [if_pos hl]
  unfold startGame
  rw [settle_start_initial, h]
  rfl

theorem reachable_startedA (fuel : Nat) : Reachable zeroRandom (fuel + 2) startedA :=
  Reachable.step .start initialState startedA Reachable.init (step_start_zeroRandom fuel)

theorem invariant_initialState : Invariant initialState := by
  refine ⟨by decide, by decide, ?_, fun _ => rfl⟩
  intro h
  exact absurd h (by decide)

theorem reachable_invariant (random : Nat → ℚ) (fuel : Nat) (s : GameState)
    (h : Reachable random fuel s) : Invariant s := by
  induction h with
  | init => exact invariant_initialState
  | step e s t _ hstep ih =>
    obtain ⟨h0, h10, hact, hload⟩ := ih
    cases e with
    | start =>
      simp only [step] at hstep
      split_ifs at hstep with hl
      · rw [hload hl] at hstep
        have h2 := settle_mono random fuel 2 _ _ t hstep
        rw [settle_start_initial, Option.some.injEq] at h2
        subst h2
        simp [Invariant]
      · rw [Option.some.injEq] at hstep
        subst hstep
        exact ⟨h0, h10, hact, hload⟩
    | tick =>
      simp only [step, tick] at hstep
      split_ifs at hstep with hc
      · have h2 := settle_mono random fuel 2 _ _ t hstep
        rw [settle_tick random fuel s hc.1, Option.some.injEq] at h2
        subst h2
        obtain ⟨hpos, hld⟩ := hact hc.1
        refine ⟨?_, ?_, ?_, ?_⟩
        · show 0 ≤ s.timeLeft - 1
          omega
        · show s.timeLeft - 1 ≤ 10
          omega
        · intro ha
          have ha2 : s.timeLeft - 1 ≠ 0 := by simpa using ha
          refine ⟨?_, hld⟩
          show 0 < s.timeLeft - 1
          omega
        · intro hl
          have hl2 : s.isLoading = true := hl
          rw [hld] at hl2
          exact absurd hl2 (by decide)
      · rw [Option.some.injEq] at hstep
        subst hstep
        exact ⟨h0, h10, hact, hload⟩
    | detected letter =>
      simp only [step, setDetectedLetter] at hstep
      split_ifs at hstep with hl
      · rw [Option.some.injEq] at hstep
        subst hstep
        exact ⟨h0, h10, hact, hload⟩
      · have hld : s.isLoading = false := by simpa using hl
        have h2 := settle_mono random fuel 2 _ _ t hstep
        by_cases hm : letter ≠ s.detectedLetter ∧ some letter = s.targetLetter ∧
            s.isGameActive = true
        · rw [settle_detect_match random fuel letter s hm.1 hm.2.1 hm.2.2,
            Option.some.injEq] at h2
          subst h2
          simp [Invariant, hld]
        · have h3 := settle_detect_nomatch random (fuel + 1) letter s hm
          rw [h3, Option.some.injEq] at h2
          subst h2
          refine ⟨h0, h10, hact, ?_⟩
          intro h
          have h4 : s.isLoading = true := h
          rw [hld] at h4
          exact absurd h4 (by decide)

theorem phase_active_iff (s : GameState) : phase s = .Active ↔ s.isGameActive = true := by
  unfold phase
  split_ifs <;> simp_all

theorem phase_over_iff (s : GameState) :
    phase s = .Over ↔ s.isGameActive = false ∧ s.isLoading = false := by
  unfold phase
  split_ifs <;> simp_all

/-! ## Properties of the game -/

/-- C7, the claim as stated fails: under `zeroRandom` the start leads to
`startedA` (target "A", score already 1), the detection of "A" leads to
`heldA` with score 2 (not 1), and in `heldA`, an Active state whose target is
"A" again, a further detection "A" leaves the state, and so the score, as it
is. -/
theorem held_sign_not_scored_again :
    step zeroRandom 2 .start initialState = some startedA ∧
    startedA.targetLetter = some "A" ∧ startedA.score = 1 ∧
    setDetectedLetter zeroRandom 2 "A" startedA = some heldA ∧
    heldA.score = 2 ∧ heldA.timeLeft = 10 ∧
    phase heldA = .Active ∧ heldA.targetLetter = some "A" ∧
    setDetectedLetter zeroRandom 2 "A" heldA = some heldA := by
  have h : stringAt letters ⌊zeroRandom startedA.randomCalls * (letters.length : ℚ)⌋ =
      some "A" := by
    simp only [zeroRandom, zero_mul, Int.floor_zero]
    decide
  refine ⟨step_start_zeroRandom 0, rfl, rfl, ?_, rfl, rfl, rfl, rfl, ?_⟩
  · unfold setDetectedLetter
    rw [settle_detect_match zeroRandom 0 "A" startedA (by decide) rfl rfl, h]
    rfl
  · exact settle_detect_nomatch zeroRandom 1 "A" heldA (by decide)

/-- C7, amended: when a detection equal to the current target letter and
different from the letter detected before is processed while the game is
Active, the score increases by exactly 1, timeLeft is reset to 10, a new target
letter is drawn from the six letters A, B, D, E, I, H (possibly the same letter
again), and the game stays Active. -/
theorem matching_detection_scores (random : Nat → ℚ) (fuel : Nat) (hfuel : 2 ≤ fuel)
    (s : GameState) (letter : String) (ha : phase s = .Active)
    (ht : s.targetLetter = some letter) (hd : s.detectedLetter ≠ letter)
    (hr : 0 ≤ random s.randomCalls ∧ random s.randomCalls < 1) :
    ∃ t, setDetectedLetter random fuel letter s = some t ∧ t.score = s.score + 1 ∧
      t.timeLeft = 10 ∧
      t.targetLetter ∈ [some "A", some "B", some "D", some "E", some "I", some "H"] ∧
      phase t = .Active := by
  obtain ⟨k, rfl⟩ := Nat.exists_eq_add_of_le hfuel
  rw [Nat.add_comm]
  have hact : s.isGameActive = true := (phase_active_iff s).mp ha
  unfold setDetectedLetter
  rw [settle_detect_match random k letter s (Ne.symm hd) ht.symm hact]
  exact ⟨_, rfl, rfl, rfl, stringAt_letters_mem _ hr.1 hr.2, rfl⟩

theorem matching_detection_scores_witness :
    step zeroRandom 2 .start initialState = some startedA ∧
    2 ≤ 2 ∧ phase startedA = .Active ∧ startedA.targetLetter = some "A" ∧
    startedA.detectedLetter ≠ "A" ∧
    (0 ≤ zeroRandom startedA.randomCalls ∧ zeroRandom startedA.randomCalls < 1) ∧
    ∃ t, setDetectedLetter zeroRandom 2 "A" startedA = some t ∧ t.score = startedA.score + 1 ∧
      t.timeLeft = 10 ∧
      t.targetLetter ∈ [some "A", some "B", some "D", some "E", some "I", some "H"] ∧
      phase t = .Active :=
  ⟨step_start_zeroRandom 0, le_refl 2, rfl, rfl, by decide, ⟨le_refl 0, zero_lt_one⟩,
    matching_detection_scores zeroRandom 2 (le_refl 2) startedA "A" rfl rfl (by decide)
      ⟨le_refl 0, zero_lt_one⟩⟩

/-- C8: when a detection whose letter differs from the current target letter
is processed, in any phase, only `detectedLetter` changes: score, timeLeft,
targetLetter and the phase keep their previous values. -/
theorem mismatching_detection_no_change (random : Nat → ℚ) (fuel : Nat) (hfuel : 1 ≤ fuel)
    (s : GameState) (letter : String) (hne : s.targetLetter ≠ some letter) :
    setDetectedLetter random fuel letter s = some { s with detectedLetter := letter } ∧
    ∃ t, setDetectedLetter random fuel letter s = some t ∧ t.score = s.score ∧
      t.timeLeft = s.timeLeft ∧ t.targetLetter = s.targetLetter ∧
      t.isGameActive = s.isGameActive ∧ phase t = phase s := by
  obtain ⟨k, rfl⟩ := Nat.exists_eq_add_of_le hfuel
  rw [Nat.add_comm]
  have h : setDetectedLetter random (k + 1) letter s = some { s with detectedLetter := letter } :=
    settle_detect_nomatch random k letter s (fun hm => hne hm.2.1.symm)
  exact ⟨h, _, h, rfl, rfl, rfl, rfl, rfl⟩

theorem mismatching_detection_no_change_witness :
    1 ≤ 2 ∧ startedA.targetLetter ≠ some "B" ∧
    (setDetectedLetter zeroRandom 2 "B" startedA = some { startedA with detectedLetter := "B" } ∧
    ∃ t, setDetectedLetter zeroRandom 2 "B" startedA = some t ∧ t.score = startedA.score ∧
      t.timeLeft = startedA.timeLeft ∧ t.targetLetter = startedA.targetLetter ∧
      t.isGameActive = startedA.isGameActive ∧ phase t = phase startedA) :=
  ⟨by decide, by decide,
    mismatching_detection_no_change zeroRandom 2 (by decide) startedA "B" (by decide)⟩

/-- C9: from every reachable Active state, after any number `n` of ticks with
no detection in between, timeLeft is the start value lowered by `n` and cut
off at 0 (each applied tick lowers it by exactly 1, it never becomes
negative), the game is Active exactly while timeLeft is above 0 and Over
exactly when it is 0, and once it is 0 a tick changes nothing. -/
theorem ticks_countdown (random : Nat → ℚ) (fuel : Nat) (hfuel : 2 ≤ fuel) (s : GameState)
    (hs : Reachable random fuel s) (ha : phase s = .Active) (n : Nat) :
    ∃ t, ticks random fuel n s = some t ∧ t.timeLeft = max (s.timeLeft - n) 0 ∧
      0 ≤ t.timeLeft ∧ t.timeLeft ≤ s.timeLeft ∧
      (phase t = .Active ↔ 0 < t.timeLeft) ∧ (phase t = .Over ↔ t.timeLeft = 0) ∧
      (0 < t.timeLeft → ∃ u, tick random fuel t = some u ∧ u.timeLeft = t.timeLeft - 1) ∧
      (t.timeLeft = 0 → tick random fuel t = some t) := by
  obtain ⟨h0, _, hact, _⟩ := reachable_invariant random fuel s hs
  obtain ⟨k, rfl⟩ := Nat.exists_eq_add_of_le hfuel
  rw [Nat.add_comm] at *
  have hactive : s.isGameActive = true := (phase_active_iff s).mp ha
  obtain ⟨hpos, hld⟩ := hact hactive
  have hiff : s.isGameActive = true ↔ 0 < s.timeLeft := ⟨fun _ => hpos, fun _ => hactive⟩
  refine ⟨_, ticks_eq random k n s h0 hiff, rfl, le_max_right _ _, ?_, ?_, ?_, ?_, ?_⟩
  · show max (s.timeLeft - n) 0 ≤ s.timeLeft
    exact max_le (by omega) h0
  · rw [phase_active_iff]
    show decide (0 < s.timeLeft - n) = true ↔ 0 < max (s.timeLeft - n) 0
    rw [decide_eq_true_eq, lt_max_iff]
    constructor
    · exact fun h => Or.inl h
    · rintro (h | h)
      · exact h
      · exact absurd h (lt_irrefl 0)
  · rw [phase_over_iff]
    show decide (0 < s.timeLeft - n) = false ∧ s.isLoading = false ↔ max (s.timeLeft - n) 0 = 0
    rw [decide_eq_false_iff_not, max_eq_right_iff]
    constructor
    · exact fun h => not_lt.mp h.1
    · exact fun h => ⟨not_lt.mpr h, hld⟩
  · intro hlt
    have hlt2 : 0 < max (s.timeLeft - n) 0 := hlt
    have hlt3 : 0 < s.timeLeft - n := by
      rcases lt_max_iff.mp hlt2 with h | h
      · exact h
      · exact absurd h (lt_irrefl 0)
    refine ⟨_, tick_active random k _ ?_ ?_, rfl⟩
    · show decide (0 < s.timeLeft - n) = true
      exact decide_eq_true hlt3
    · exact ne_of_gt hlt2
  · intro hz
    exact tick_stopped random (k + 2) _ (fun h => h.2 hz)

theorem ticks_countdown_witness :
    2 ≤ 2 ∧ Reachable zeroRandom 2 startedA ∧ phase startedA = .Active ∧
    ∃ t, ticks zeroRandom 2 10 startedA = some t ∧
      t.timeLeft = max (startedA.timeLeft - (10 : Nat)) 0 ∧
      0 ≤ t.timeLeft ∧ t.timeLeft ≤ startedA.timeLeft ∧
      (phase t = .Active ↔ 0 < t.timeLeft) ∧ (phase t = .Over ↔ t.timeLeft = 0) ∧
      (0 < t.timeLeft → ∃ u, tick zeroRandom 2 t = some u ∧ u.timeLeft = t.timeLeft - 1) ∧
      (t.timeLeft = 0 → tick zeroRandom 2 t = some t) :=
  ⟨le_refl 2, reachable_startedA 0, rfl,
    ticks_countdown zeroRandom 2 (le_refl 2) startedA (reachable_startedA 0) rfl 10⟩

theorem settle_start_empty (random : Nat → ℚ) (fuel : Nat) (s : GameState)
    (hd : s.detectedLetter = "") (ht : s.targetLetter = some "")
    (ha : s.isGameActive = false) (h0 : s.timeLeft ≠ 0) :
    settle random (fuel + 2) (some s) { s with isLoading := false, isGameActive := true } =
      some { detectedLetter := "",
             targetLetter :=
               stringAt letters ⌊random (s.randomCalls + 1) * (letters.length : ℚ)⌋,
             score := s.score + 1, timeLeft := 10, isGameActive := true, isLoading := false,
             randomCalls := s.randomCalls + 2 } := by
  have hne := stringAt_letters_ne_empty ⌊random (s.randomCalls + 1) * (letters.length : ℚ)⌋
  by_cases h10 : s.timeLeft = 10
  · simp [settle, flushEffects, depsChanged, matchEffect, timerEffect, initEffect,
      generateRandomLetter, cells, hd, ht, ha, h0, h10, hne, Ne.symm hne]
  · simp [settle, flushEffects, depsChanged, matchEffect, timerEffect, initEffect,
      generateRandomLetter, cells, hd, ht, ha, h0, h10, hne, Ne.symm hne]

/-- C10: the start button is offered only in states with no detected letter,
no target letter yet, the game not active and timeLeft not 0 (every reachable
state that still shows the loading screen is such a state), and from every
such state, whatever its timeLeft is, `startGame` leads to a state with
timeLeft = 10 and phase Active whose target letter is the letter of the last
of the two draws made by the start, one of the six letters A, B, D, E, I,
H. -/
theorem startGame_sets_timer_phase_target (random : Nat → ℚ) (fuel : Nat) (hfuel : 2 ≤ fuel)
    (s : GameState) (hd : s.detectedLetter = "") (ht : s.targetLetter = some "")
    (ha : s.isGameActive = false) (h0 : s.timeLeft ≠ 0)
    (hr : 0 ≤ random (s.randomCalls + 1) ∧ random (s.randomCalls + 1) < 1) :
    (∀ u, Reachable random fuel u → u.isLoading = true →
      u.detectedLetter = "" ∧ u.targetLetter = some "" ∧ u.isGameActive = false ∧
        u.timeLeft ≠ 0 ∧ step random fuel .start u = startGame random fuel u) ∧
    ∃ t, startGame random fuel s = some t ∧ t.timeLeft = 10 ∧ phase t = .Active ∧
      t.targetLetter ∈ [some "A", some "B", some "D", some "E", some "I", some "H"] ∧
      t.targetLetter = stringAt letters ⌊random (s.randomCalls + 1) * (letters.length : ℚ)⌋ ∧
      t.randomCalls = s.randomCalls + 2 ∧ t.isLoading = false := by
  constructor
  · intro u hu hl
    have hinit : u = initialState := (reachable_invariant random fuel u hu).2.2.2 hl
    subst hinit
    exact ⟨rfl, rfl, rfl, by decide, rfl⟩
  · obtain ⟨k, rfl⟩ := Nat.exists_eq_add_of_le hfuel
    rw [Nat.add_comm]
    exact ⟨_, settle_start_empty random k s hd ht ha h0, rfl, rfl,
      stringAt_letters_mem _ hr.1 hr.2, rfl, rfl, rfl⟩

theorem startGame_sets_timer_phase_target_witness :
    2 ≤ 2 ∧ lateStart.detectedLetter = "" ∧ lateStart.targetLetter = some "" ∧
    lateStart.isGameActive = false ∧ lateStart.timeLeft ≠ 0 ∧
    (0 ≤ zeroRandom (lateStart.randomCalls + 1) ∧ zeroRandom (lateStart.randomCalls + 1) < 1) ∧
    ((∀ u, Reachable zeroRandom 2 u → u.isLoading = true →
      u.detectedLetter = "" ∧ u.targetLetter = some "" ∧ u.isGameActive = false ∧
        u.timeLeft ≠ 0 ∧ step zeroRandom 2 .start u = startGame zeroRandom 2 u) ∧
    ∃ t, startGame zeroRandom 2 lateStart = some t ∧ t.timeLeft = 10 ∧ phase t = .Active ∧
      t.targetLetter ∈ [some "A", some "B", some "D", some "E", some "I", some "H"] ∧
      t.targetLetter =
        stringAt letters ⌊zeroRandom (lateStart.randomCalls + 1) * (letters.length : ℚ)⌋ ∧
      t.randomCalls = lateStart.randomCalls + 2 ∧ t.isLoading = false) ∧
    ((∀ u, Reachable zeroRandom 2 u → u.isLoading = true →
      u.detectedLetter = "" ∧ u.targetLetter = some "" ∧ u.isGameActive = false ∧
        u.timeLeft ≠ 0 ∧ step zeroRandom 2 .start u = startGame zeroRandom 2 u) ∧
    ∃ t, startGame zeroRandom 2 initialState = some t ∧ t.timeLeft = 10 ∧
      phase t = .Active ∧
      t.targetLetter ∈ [some "A", some "B", some "D", some "E", some "I", some "H"] ∧
      t.targetLetter =
        stringAt letters ⌊zeroRandom (initialState.randomCalls + 1) * (letters.length : ℚ)⌋ ∧
      t.randomCalls = initialState.randomCalls + 2 ∧ t.isLoading = false) :=
  ⟨le_refl 2, rfl, rfl, rfl, by decide, ⟨le_refl 0, zero_lt_one⟩,
    startGame_sets_timer_phase_target zeroRandom 2 (le_refl 2) lateStart rfl rfl rfl
      (by decide) ⟨le_refl 0, zero_lt_one⟩,
    startGame_sets_timer_phase_target zeroRandom 2 (le_refl 2) initialState rfl rfl rfl
      (by decide) ⟨le_refl 0, zero_lt_one⟩⟩

/-! ## Shadowed branches of the classifier -/

/-- An entry whose test fails whenever all earlier tests fail is never the
first match. -/
theorem firstMatch_shadowed (pre post : List ((Tips → Bool) × String)) (test : Tips → Bool)
    (letter : String) (f : Tips) (h0 : letter ≠ "")
    (hpre : letter ∉ pre.map Prod.snd) (hpost : letter ∉ post.map Prod.snd)
    (himp : (∀ q ∈ pre, q.1 f = false) → test f = false) :
    firstMatch (pre ++ (test, letter) :: post) f ≠ letter := by
  intro h
  obtain ⟨hall, ht⟩ := (firstMatch_eq_iff pre post test letter f h0 hpre hpost).mp h
  rw [himp hall] at ht
  exact Bool.noConfusion ht

theorem isG_imp_isD (f : Tips) (h : isG f = true) : isD f = true := by
  simp only [isG, isD, Bool.and_eq_true, decide_eq_true_eq] at h ⊢
  exact h.1

theorem isP_eq_isA : isP = isA := rfl

theorem isS_eq_isE (f : Tips) : isS f = isE f := by
  rw [Bool.eq_iff_iff]
  simp only [isS, isE, Bool.and_eq_true]
  tauto

theorem isU_imp_isR (f : Tips) (h : isU f = true) : isR f = true := by
  simp only [isU, isR, Magnitude.lt, dist, Math.hypot, Math.abs, Bool.and_eq_true,
    decide_eq_true_eq] at h ⊢
  obtain ⟨⟨h1, h2⟩, _, h3⟩ := h
  refine ⟨⟨h1, h2⟩, ?_⟩
  split_ifs <;> nlinarith [mul_self_nonneg (f.index.y - f.middle.y)]

theorem isZ_imp_isD (f : Tips) (h : isZ f = true) : isD f = true := by
  simp only [isZ, isD, Bool.and_eq_true, decide_eq_true_eq, gt_iff_lt] at h ⊢
  obtain ⟨⟨⟨h1, h2⟩, h3⟩, h4⟩ := h
  exact ⟨⟨⟨h1, lt_trans h1 h2⟩, lt_trans h1 h3⟩, lt_trans h1 h4⟩

theorem isT_imp_isF_or_isQ (f : Tips) (h : isT f = true) : isF f = true ∨ isQ f = true := by
  simp only [isT, isF, isQ, Bool.and_eq_true, decide_eq_true_eq, gt_iff_lt] at h ⊢
  obtain ⟨⟨⟨h1, _⟩, h3⟩, h4⟩ := h
  by_cases hm : f.middle.y < f.ring.y ∧ f.middle.y < f.pinky.y
  · exact Or.inl ⟨⟨h1, hm.1⟩, hm.2⟩
  · right
    refine ⟨⟨⟨h1, ?_⟩, h3⟩, h4⟩
    by_contra hle
    apply hm
    exact ⟨lt_of_le_of_lt (not_lt.mp hle) h3, lt_of_le_of_lt (not_lt.mp hle) h4⟩

theorem cascade_split_G : cascade = cascade.take 6 ++ (isG, "G") :: cascade.drop 7 := rfl

theorem cascade_split_P : cascade = cascade.take 14 ++ (isP, "P") :: cascade.drop 15 := rfl

theorem cascade_split_S : cascade = cascade.take 17 ++ (isS, "S") :: cascade.drop 18 := rfl

theorem cascade_split_T : cascade = cascade.take 18 ++ (isT, "T") :: cascade.drop 19 := rfl

theorem cascade_split_Z : cascade = cascade.take 24 ++ (isZ, "Z") :: cascade.drop 25 := rfl

theorem bool_false_of_imp {a b : Bool} (himp : a = true → b = true) (hb : b = false) :
    a = false := by
  cases a
  · rfl
  · rw [himp rfl] at hb
    exact Bool.noConfusion hb

theorem firstMatch_cascade_ne_G (f : Tips) : firstMatch cascade f ≠ "G" := by
  rw [cascade_split_G]
  refine firstMatch_shadowed _ _ _ _ f (by decide) (by decide) (by decide) ?_
  intro hall
  exact bool_false_of_imp (isG_imp_isD f) (hall (isD, "D") (by simp [cascade]))

theorem firstMatch_cascade_ne_P (f : Tips) : firstMatch cascade f ≠ "P" := by
  rw [cascade_split_P]
  refine firstMatch_shadowed _ _ _ _ f (by decide) (by decide) (by decide) ?_
  intro hall
  exact hall (isA, "A") (by simp [cascade])

theorem firstMatch_cascade_ne_S (f : Tips) : firstMatch cascade f ≠ "S" := by
  rw [cascade_split_S]
  refine firstMatch_shadowed _ _ _ _ f (by decide) (by decide) (by decide) ?_
  intro hall
  rw [isS_eq_isE]
  exact hall (isE, "E") (by simp [cascade])

theorem firstMatch_cascade_ne_U (f : Tips) : firstMatch cascade f ≠ "U" := by
  rw [cascade_split_U]
  refine firstMatch_shadowed _ _ _ _ f (by decide) (by decide) (by decide) ?_
  intro hall
  exact bool_false_of_imp (isU_imp_isR f) (hall (isR, "R") (by simp [cascade]))

theorem firstMatch_cascade_ne_Z (f : Tips) : firstMatch cascade f ≠ "Z" := by
  rw [cascade_split_Z]
  refine firstMatch_shadowed _ _ _ _ f (by decide) (by decide) (by decide) ?_
  intro hall
  exact bool_false_of_imp (isZ_imp_isD f) (hall (isD, "D") (by simp [cascade]))

theorem firstMatch_cascade_ne_T (f : Tips) : firstMatch cascade f ≠ "T" := by
  rw [cascade_split_T]
  refine firstMatch_shadowed _ _ _ _ f (by decide) (by decide) (by decide) ?_
  intro hall
  have hF : isF f = false := hall (isF, "F") (by simp [cascade])
  have hQ : isQ f = false := hall (isQ, "Q") (by simp [cascade])
  cases hT : isT f
  · rfl
  · rcases isT_imp_isF_or_isQ f hT with h | h
    · rw [hF] at h; exact Bool.noConfusion h
    · rw [hQ] at h; exact Bool.noConfusion h

theorem detect_poseOf (t i m r p : Landmark) :
    detectSignLanguageLetter (poseOf t i m r p) = .ok (firstMatch cascade ⟨t, i, m, r, p⟩) :=
  detect_of_tips _ t i m r p rfl rfl rfl rfl rfl

theorem inFrame_poseOf (t i m r p : Landmark) (ht : inFrame t) (hi : inFrame i)
    (hm : inFrame m) (hr : inFrame r) (hp : inFrame p) : ∀ l ∈ poseOf t i m r p, inFrame l := by
  have hc : inFrame ⟨1/2, 1/2⟩ := by
    unfold inFrame
    norm_num
  intro l hl
  simp only [poseOf, List.mem_cons, List.mem_singleton, List.not_mem_nil, or_false] at hl
  rcases hl with h | h | h | h | h | h | h | h | h | h | h | h | h | h | h | h | h | h | h | h | h <;>
    rw [h] <;> assumption

theorem cascade_split_D : cascade = cascade.take 3 ++ (isD, "D") :: cascade.drop 4 := rfl

theorem cascade_split_E : cascade = cascade.take 4 ++ (isE, "E") :: cascade.drop 5 := rfl

theorem cascade_split_H : cascade = cascade.take 7 ++ (isH, "H") :: cascade.drop 8 := rfl

theorem cascade_split_I : cascade = cascade.take 8 ++ (isI, "I") :: cascade.drop 9 := rfl

theorem detect_poseA : detectSignLanguageLetter poseA = .ok "A" := by
  rw [poseA, detect_poseOf, Except.ok.injEq, firstMatch_cascade_A]
  simp only [isA]
  norm_num

theorem detect_poseB : detectSignLanguageLetter poseB = .ok "B" := by
  rw [poseB, detect_poseOf, Except.ok.injEq, firstMatch_cascade_B]
  simp only [isA, isB]
  norm_num

theorem detect_poseD : detectSignLanguageLetter poseD = .ok "D" := by
  rw [poseD, detect_poseOf, Except.ok.injEq, cascade_split_D,
    firstMatch_eq_iff _ _ _ _ _ (by decide) (by decide) (by decide)]
  simp only [cascade, List.take, List.forall_mem_cons, List.not_mem_nil, isA, isB, isC, isD,
    dist, Math.hypot, Magnitude.lt, Magnitude.gt]
  norm_num

theorem detect_poseE : detectSignLanguageLetter poseE = .ok "E" := by
  rw [poseE, detect_poseOf, Except.ok.injEq, cascade_split_E,
    firstMatch_eq_iff _ _ _ _ _ (by decide) (by decide) (by decide)]
  simp only [cascade, List.take, List.forall_mem_cons, List.not_mem_nil, isA, isB, isC, isD,
    isE, dist, Math.hypot, Magnitude.lt, Magnitude.gt]
  norm_num

theorem detect_poseH : detectSignLanguageLetter poseH = .ok "H" := by
  rw [poseH, detect_poseOf, Except.ok.injEq, cascade_split_H,
    firstMatch_eq_iff _ _ _ _ _ (by decide) (by decide) (by decide)]
  simp only [cascade, List.take, List.forall_mem_cons, List.not_mem_nil, isA, isB, isC, isD,
    isE, isF, isG, isH, dist, Math.hypot, Magnitude.lt, Magnitude.gt]
  norm_num

theorem detect_poseI : detectSignLanguageLetter poseI = .ok "I" := by
  rw [poseI, detect_poseOf, Except.ok.injEq, cascade_split_I,
    firstMatch_eq_iff _ _ _ _ _ (by decide) (by decide) (by decide)]
  simp only [cascade, List.take, List.forall_mem_cons, List.not_mem_nil, isA, isB, isC, isD,
    isE, isF, isG, isH, isI, dist, Math.hypot, Magnitude.lt, Magnitude.gt]
  norm_num

/-! ## Further lemmas on the game -/

theorem letters_length : (letters.length : ℚ) = 6 := by
  have h : letters.length = 6 := rfl
  rw [h]
  norm_num

theorem floor_random_range (r : ℚ) (h0 : 0 ≤ r) (h1 : r < 1) : 0 ≤ ⌊r * 6⌋ ∧ ⌊r * 6⌋ ≤ 5 := by
  constructor
  · exact Int.floor_nonneg.mpr (by linarith)
  · have h : ⌊r * 6⌋ < 6 := by
      rw [Int.floor_lt]
      push_cast
      linarith
    omega

theorem stringAt_letters_inj (j k : Int) (hj0 : 0 ≤ j) (hj : j ≤ 5) (hk0 : 0 ≤ k) (hk : k ≤ 5) :
    stringAt letters j = stringAt letters k ↔ j = k := by
  interval_cases j <;> interval_cases k <;> decide

theorem reachable_ticks (random : Nat → ℚ) (fuel n : Nat) (s t : GameState)
    (hs : Reachable random fuel s) (ht : ticks random fuel n s = some t) :
    Reachable random fuel t := by
  induction n generalizing s with
  | zero =>
    simp only [ticks, Option.some.injEq] at ht
    exact ht ▸ hs
  | succ n ih =>
    simp only [ticks] at ht
    cases hu : tick random fuel s with
    | none => rw [hu] at ht; simp at ht
    | some u =>
      rw [hu, Option.some_bind] at ht
      exact ih u (Reachable.step .tick s u hs hu) ht

theorem ticks_startedA (fuel : Nat) : ticks zeroRandom (fuel + 2) 10 startedA = some overA := by
  rw [ticks_eq zeroRandom fuel 10 startedA (by decide) (by decide)]
  decide

theorem reachable_overA (fuel : Nat) : Reachable zeroRandom (fuel + 2) overA :=
  reachable_ticks zeroRandom (fuel + 2) 10 startedA overA (reachable_startedA fuel)
    (ticks_startedA fuel)

theorem settle_start_over (random : Nat → ℚ) (fuel : Nat) (s : GameState)
    (ha : s.isGameActive = false) (h0 : s.timeLeft = 0) :
    ∃ t, settle random (fuel + 2) (some s) { s with isLoading := false, isGameActive := true } =
      some t ∧ t.isGameActive = false ∧ t.isLoading = false := by
  by_cases hm : some s.detectedLetter = s.targetLetter
  · simp [settle, flushEffects, depsChanged, matchEffect, timerEffect, initEffect,
      generateRandomLetter, cells, ha, h0, hm]
  · simp [settle, flushEffects, depsChanged, matchEffect, timerEffect, initEffect,
      generateRandomLetter, cells, ha, h0, hm]

theorem reachable_started (random : Nat → ℚ) (hrand : ∀ k, 0 ≤ random k ∧ random k < 1)
    (fuel : Nat) (s : GameState) (h : Reachable random fuel s) : StartedInvariant s := by
  induction h with
  | init =>
    intro hl
    exact absurd hl (by decide)
  | step e s t hs hstep ih =>
    obtain ⟨_, _, hact, hload⟩ := reachable_invariant random fuel s hs
    cases e with
    | start =>
      simp only [step] at hstep
      split_ifs at hstep with hl
      · rw [hload hl] at hstep
        have h2 := settle_mono random fuel 2 _ _ t hstep
        rw [settle_start_initial, Option.some.injEq] at h2
        subst h2
        intro _
        refine ⟨stringAt_letters_mem _ (hrand 1).1 (hrand 1).2, ?_⟩
        intro ha
        exact Bool.noConfusion ha
      · rw [Option.some.injEq] at hstep
        subst hstep
        exact ih
    | tick =>
      simp only [step, tick] at hstep
      split_ifs at hstep with hc
      · have h2 := settle_mono random fuel 2 _ _ t hstep
        rw [settle_tick random fuel s hc.1, Option.some.injEq] at h2
        subst h2
        intro hl
        refine ⟨(ih hl).1, ?_⟩
        intro ha
        have ha2 : decide (s.timeLeft - 1 ≠ 0) = false := ha
        simpa using ha2
      · rw [Option.some.injEq] at hstep
        subst hstep
        exact ih
    | detected letter =>
      simp only [step, setDetectedLetter] at hstep
      split_ifs at hstep with hl
      · rw [Option.some.injEq] at hstep
        subst hstep
        exact ih
      · have hld : s.isLoading = false := by simpa using hl
        have h2 := settle_mono random fuel 2 _ _ t hstep
        by_cases hm : letter ≠ s.detectedLetter ∧ some letter = s.targetLetter ∧
            s.isGameActive = true
        · rw [settle_detect_match random fuel letter s hm.1 hm.2.1 hm.2.2,
            Option.some.injEq] at h2
          subst h2
          intro _
          refine ⟨stringAt_letters_mem _ (hrand _).1 (hrand _).2, ?_⟩
          intro ha
          exact Bool.noConfusion ha
        · have h3 := settle_detect_nomatch random (fuel + 1) letter s hm
          rw [h3, Option.some.injEq] at h2
          subst h2
          exact ih

theorem phase_idle_iff (s : GameState) :
    phase s = .Idle ↔ s.isGameActive = false ∧ s.isLoading = true := by
  unfold phase
  split_ifs <;> simp_all

theorem step_inactive (random : Nat → ℚ) (fuel : Nat) (e : Event) (s : GameState)
    (hne : e ≠ .start) (ha : s.isGameActive = false) :
    ∃ t, step random (fuel + 1) e s = some t ∧ t.score = s.score ∧ t.timeLeft = s.timeLeft ∧
      t.targetLetter = s.targetLetter ∧ t.isGameActive = false ∧ t.isLoading = s.isLoading := by
  have hna : ¬ s.isGameActive = true := by simp [ha]
  cases e with
  | start => exact absurd rfl hne
  | tick =>
    exact ⟨s, tick_stopped random (fuel + 1) s (fun h => hna h.1), rfl, rfl, rfl, ha, rfl⟩
  | detected letter =>
    simp only [step]
    split_ifs with hl
    · exact ⟨s, rfl, rfl, rfl, rfl, ha, rfl⟩
    · exact ⟨_, settle_detect_nomatch random fuel letter s (fun h => hna h.2.2), rfl, rfl, rfl,
        ha, rfl⟩

theorem run_inactive (random : Nat → ℚ) (fuel : Nat) (es : List Event) (s : GameState)
    (hne : ∀ e ∈ es, e ≠ .start) (ha : s.isGameActive = false) :
    ∃ t, run random (fuel + 1) es s = some t ∧ t.score = s.score ∧ t.timeLeft = s.timeLeft ∧
      t.targetLetter = s.targetLetter ∧ t.isGameActive = false ∧ t.isLoading = s.isLoading := by
  induction es generalizing s with
  | nil => exact ⟨s, rfl, rfl, rfl, rfl, ha, rfl⟩
  | cons e es ih =>
    obtain ⟨u, hu, h1, h2, h3, h4, h5⟩ :=
      step_inactive random fuel e s (hne e (List.mem_cons_self _ _)) ha
    obtain ⟨t, ht, g1, g2, g3, g4, g5⟩ :=
      ih u (fun e he => hne e (List.mem_cons_of_mem _ he)) h4
    refine ⟨t, ?_, g1.trans h1, g2.trans h2, g3.trans h3, g4, g5.trans h5⟩
    simp only [run, hu, Option.some_bind, ht]

theorem phase_eq_of_flags (s t : GameState) (ha : t.isGameActive = s.isGameActive)
    (hl : t.isLoading = s.isLoading) : phase t = phase s := by
  unfold phase
  rw [ha, hl]

/-! ## Further properties of the game and the classifier -/

/-- C12, evaluated on the code: starting the game from the initial state and
applying 10 consecutive ticks ends with phase Over and timeLeft 0, but the
score is 1, not 0: it is already 1 right after the start. -/
theorem start_then_ten_ticks (random : Nat → ℚ) (fuel : Nat) :
    ∃ s1 s2, startGame random (fuel + 2) initialState = some s1 ∧
      ticks random (fuel + 2) 10 s1 = some s2 ∧ phase s2 = .Over ∧ s2.timeLeft = 0 ∧
      s1.score = 1 ∧ s2.score = 1 :=
  ⟨_, _, settle_start_initial random fuel,
    ticks_eq random fuel 10 _ (show (0 : Int) ≤ 10 by decide)
      (show (true = true ↔ (0 : Int) < 10) by decide), rfl, rfl, rfl, rfl⟩

/-- C13, the claim as stated fails: `overA`, reached by the start and ten
ticks, is in phase Over and its target letter is still "A". -/
theorem target_kept_when_over :
    Reachable zeroRandom 2 overA ∧ phase overA = .Over ∧ overA.targetLetter = some "A" ∧
    overA.targetLetter ≠ none ∧ overA.targetLetter ≠ some "" :=
  ⟨reachable_overA 0, rfl, rfl, by decide, by decide⟩

/-- C13, amended: in every reachable state the target letter is the empty
string in Idle and one of the six letters A, B, D, E, I, H in Active and in
Over (where the last target is kept); so it is defined and non-empty exactly
when the phase is not Idle. -/
theorem target_nonempty_iff_started (random : Nat → ℚ)
    (hrand : ∀ k, 0 ≤ random k ∧ random k < 1) (fuel : Nat) (s : GameState)
    (hs : Reachable random fuel s) :
    (phase s = .Idle → s.targetLetter = some "") ∧
    (phase s = .Active →
      s.targetLetter ∈ [some "A", some "B", some "D", some "E", some "I", some "H"]) ∧
    (phase s = .Over →
      s.targetLetter ∈ [some "A", some "B", some "D", some "E", some "I", some "H"]) ∧
    ((s.targetLetter ≠ none ∧ s.targetLetter ≠ some "") ↔ phase s ≠ .Idle) := by
  obtain ⟨_, _, hact, hload⟩ := reachable_invariant random fuel s hs
  have hstarted := reachable_started random hrand fuel s hs
  have hidle : phase s = .Idle → s.targetLetter = some "" := by
    intro h
    rw [hload ((phase_idle_iff s).mp h).2]
    rfl
  have hactive : phase s = .Active →
      s.targetLetter ∈ [some "A", some "B", some "D", some "E", some "I", some "H"] :=
    fun h => (hstarted (hact ((phase_active_iff s).mp h)).2).1
  have hover : phase s = .Over →
      s.targetLetter ∈ [some "A", some "B", some "D", some "E", some "I", some "H"] :=
    fun h => (hstarted ((phase_over_iff s).mp h).2).1
  refine ⟨hidle, hactive, hover, ?_⟩
  constructor
  · intro hne h
    exact hne.2 (hidle h)
  · intro hne
    have hmem : s.targetLetter ∈
        [some "A", some "B", some "D", some "E", some "I", some "H"] := by
      cases hp : phase s with
      | Idle => exact absurd hp hne
      | Active => exact hactive hp
      | Over => exact hover hp
    constructor
    · intro h
      rw [h] at hmem
      revert hmem
      decide
    · intro h
      rw [h] at hmem
      revert hmem
      decide

theorem target_nonempty_iff_started_witness :
    (∀ k, 0 ≤ zeroRandom k ∧ zeroRandom k < 1) ∧ Reachable zeroRandom 2 startedA ∧
    ((phase startedA = .Idle → startedA.targetLetter = some "") ∧
    (phase startedA = .Active →
      startedA.targetLetter ∈ [some "A", some "B", some "D", some "E", some "I", some "H"]) ∧
    (phase startedA = .Over →
      startedA.targetLetter ∈ [some "A", some "B", some "D", some "E", some "I", some "H"]) ∧
    ((startedA.targetLetter ≠ none ∧ startedA.targetLetter ≠ some "") ↔
      phase startedA ≠ .Idle)) :=
  ⟨fun _ => ⟨le_refl 0, zero_lt_one⟩, reachable_startedA 0,
    target_nonempty_iff_started zeroRandom (fun _ => ⟨le_refl 0, zero_lt_one⟩) 2 startedA
      (reachable_startedA 0)⟩

/-- C14: while the game is not active (phase Idle or Over) a tick leaves the
state as it is, a detection of any letter, the target letter included, changes
only `detectedLetter`, and every sequence of tick and detection events leaves
score, timeLeft, targetLetter and the phase unchanged: the phase does not
return to Active. -/
theorem inactive_events_are_noops (random : Nat → ℚ) (fuel : Nat) (hfuel : 1 ≤ fuel)
    (s : GameState) (ha : phase s ≠ .Active) :
    tick random fuel s = some s ∧
    (∀ letter, ∃ t, setDetectedLetter random fuel letter s = some t ∧
      t = { s with detectedLetter := letter } ∧ t.score = s.score ∧ t.timeLeft = s.timeLeft ∧
      t.targetLetter = s.targetLetter ∧ phase t = phase s) ∧
    (∀ es : List Event, (∀ e ∈ es, e ≠ .start) →
      ∃ t, run random fuel es s = some t ∧ t.score = s.score ∧ t.timeLeft = s.timeLeft ∧
        t.targetLetter = s.targetLetter ∧ phase t = phase s ∧ phase t ≠ .Active) := by
  obtain ⟨k, rfl⟩ := Nat.exists_eq_add_of_le hfuel
  rw [Nat.add_comm]
  have hna : ¬ s.isGameActive = true := fun h => ha ((phase_active_iff s).mpr h)
  have hina : s.isGameActive = false := by simpa using hna
  refine ⟨tick_stopped random (k + 1) s (fun h => hna h.1), ?_, ?_⟩
  · intro letter
    exact ⟨_, settle_detect_nomatch random k letter s (fun h => hna h.2.2), rfl, rfl, rfl, rfl,
      rfl⟩
  · intro es hes
    obtain ⟨t, ht, h1, h2, h3, h4, h5⟩ := run_inactive random k es s hes hina
    have hp : phase t = phase s := phase_eq_of_flags s t (h4.trans hina.symm) h5
    exact ⟨t, ht, h1, h2, h3, hp, hp ▸ ha⟩

theorem inactive_events_are_noops_witness :
    1 ≤ 2 ∧ phase overA ≠ .Active ∧
    (tick zeroRandom 2 overA = some overA ∧
    (∀ letter, ∃ t, setDetectedLetter zeroRandom 2 letter overA = some t ∧
      t = { overA with detectedLetter := letter } ∧ t.score = overA.score ∧
      t.timeLeft = overA.timeLeft ∧ t.targetLetter = overA.targetLetter ∧
      phase t = phase overA) ∧
    (∀ es : List Event, (∀ e ∈ es, e ≠ .start) →
      ∃ t, run zeroRandom 2 es overA = some t ∧ t.score = overA.score ∧
        t.timeLeft = overA.timeLeft ∧ t.targetLetter = overA.targetLetter ∧
        phase t = phase overA ∧ phase t ≠ .Active)) :=
  ⟨by decide, by decide, inactive_events_are_noops zeroRandom 2 (by decide) overA (by decide)⟩

theorem startGame_overA :
    startGame zeroRandom 2 overA = some { overA with randomCalls := 3 } := by
  have h : stringAt letters ⌊zeroRandom 2 * (letters.length : ℚ)⌋ = some "A" := by
    simp only [zeroRandom, zero_mul, Int.floor_zero]
    decide
  simp [startGame, settle, flushEffects, depsChanged, matchEffect, timerEffect, initEffect,
    generateRandomLetter, cells, overA, h]

/-- C15, the claim as stated fails: in `overA`, a reachable state in phase Over
with score 1, no event leads to phase Idle or to score 0 (the component has no
reset), and `startGame` applied to it does not begin a game: the phase is Over
again and timeLeft is still 0. -/
theorem no_reset_after_over :
    Reachable zeroRandom 2 overA ∧ phase overA = .Over ∧ overA.score = 1 ∧
    (¬ ∃ e t, step zeroRandom 2 e overA = some t ∧ (phase t = .Idle ∨ t.score = 0)) ∧
    ∃ t, startGame zeroRandom 2 overA = some t ∧ phase t = .Over ∧ t.timeLeft = 0 := by
  refine ⟨reachable_overA 0, rfl, rfl, ?_, _, startGame_overA, rfl, rfl⟩
  rintro ⟨e, t, hstep, hbad⟩
  have hcases : t.score = 1 ∧ phase t = .Over := by
    cases e with
    | start =>
      have h : step zeroRandom 2 .start overA = some overA := rfl
      rw [h, Option.some.injEq] at hstep
      subst hstep
      exact ⟨rfl, rfl⟩
    | tick =>
      obtain ⟨u, hu, h1, _, _, h4, h5⟩ :=
        step_inactive zeroRandom 1 .tick overA (fun h => Event.noConfusion h) rfl
      rw [hu, Option.some.injEq] at hstep
      subst hstep
      exact ⟨h1, (phase_over_iff u).mpr ⟨h4, h5⟩⟩
    | detected letter =>
      obtain ⟨u, hu, h1, _, _, h4, h5⟩ :=
        step_inactive zeroRandom 1 (.detected letter) overA (fun h => Event.noConfusion h) rfl
      rw [hu, Option.some.injEq] at hstep
      subst hstep
      exact ⟨h1, (phase_over_iff u).mpr ⟨h4, h5⟩⟩
  rcases hbad with h | h
  · rw [hcases.2] at h
    exact Phase.noConfusion h
  · rw [hcases.1] at h
    exact absurd h (by decide)

/-- C15, amended: the component has no reset. In every reachable state in
phase Over each event (start, tick, detection) leaves the phase Over and score
and timeLeft as they are, the start event changes nothing because the start
button is no longer offered, and the handler `startGame` itself applied to
such a state ends in phase Over again. -/
theorem over_is_terminal (random : Nat → ℚ) (hrand : ∀ k, 0 ≤ random k ∧ random k < 1)
    (fuel : Nat) (hfuel : 2 ≤ fuel) (s : GameState) (hs : Reachable random fuel s)
    (ho : phase s = .Over) :
    (∀ e, ∃ t, step random fuel e s = some t ∧ phase t = .Over ∧ t.score = s.score ∧
      t.timeLeft = s.timeLeft) ∧
    step random fuel .start s = some s ∧
    ∃ t, startGame random fuel s = some t ∧ phase t = .Over := by
  obtain ⟨ha, hl⟩ := (phase_over_iff s).mp ho
  have h0 : s.timeLeft = 0 := (reachable_started random hrand fuel s hs hl).2 ha
  obtain ⟨k, rfl⟩ := Nat.exists_eq_add_of_le hfuel
  rw [Nat.add_comm] at *
  have hstart : step random (k + 2) .start s = some s := by
    simp only [step, hl]
    rfl
  refine ⟨?_, hstart, ?_⟩
  · intro e
    cases e with
    | start => exact ⟨s, hstart, ho, rfl, rfl⟩
    | tick =>
      obtain ⟨u, hu, h1, h2, _, h4, h5⟩ :=
        step_inactive random (k + 1) .tick s (fun h => Event.noConfusion h) ha
      exact ⟨u, hu, (phase_over_iff u).mpr ⟨h4, h5.trans hl⟩, h1, h2⟩
    | detected letter =>
      obtain ⟨u, hu, h1, h2, _, h4, h5⟩ :=
        step_inactive random (k + 1) (.detected letter) s (fun h => Event.noConfusion h) ha
      exact ⟨u, hu, (phase_over_iff u).mpr ⟨h4, h5.trans hl⟩, h1, h2⟩
  · obtain ⟨t, ht, h4, h5⟩ := settle_start_over random k s ha h0
    exact ⟨t, ht, (phase_over_iff t).mpr ⟨h4, h5⟩⟩

theorem over_is_terminal_witness :
    (∀ k, 0 ≤ zeroRandom k ∧ zeroRandom k < 1) ∧ 2 ≤ 2 ∧ Reachable zeroRandom 2 overA ∧
    phase overA = .Over ∧
    ((∀ e, ∃ t, step zeroRandom 2 e overA = some t ∧ phase t = .Over ∧ t.score = overA.score ∧
      t.timeLeft = overA.timeLeft) ∧
    step zeroRandom 2 .start overA = some overA ∧
    ∃ t, startGame zeroRandom 2 overA = some t ∧ phase t = .Over) :=
  ⟨fun _ => ⟨le_refl 0, zero_lt_one⟩, le_refl 2, reachable_overA 0, rfl,
    over_is_terminal zeroRandom (fun _ => ⟨le_refl 0, zero_lt_one⟩) 2 (le_refl 2) overA
      (reachable_overA 0) rfl⟩

/-- C16: for each of the six letters A, B, D, E, I, H of the active set there
is a pose of 21 landmarks with all coordinates in [0, 1] on which
`detectSignLanguageLetter` returns exactly that letter. -/
theorem every_target_achievable :
    letters.toList.map String.singleton = ["A", "B", "D", "E", "I", "H"] ∧
    (∃ pose, pose.length = 21 ∧ (∀ l ∈ pose, inFrame l) ∧
      detectSignLanguageLetter pose = .ok "A") ∧
    (∃ pose, pose.length = 21 ∧ (∀ l ∈ pose, inFrame l) ∧
      detectSignLanguageLetter pose = .ok "B") ∧
    (∃ pose, pose.length = 21 ∧ (∀ l ∈ pose, inFrame l) ∧
      detectSignLanguageLetter pose = .ok "D") ∧
    (∃ pose, pose.length = 21 ∧ (∀ l ∈ pose, inFrame l) ∧
      detectSignLanguageLetter pose = .ok "E") ∧
    (∃ pose, pose.length = 21 ∧ (∀ l ∈ pose, inFrame l) ∧
      detectSignLanguageLetter pose = .ok "I") ∧
    (∃ pose, pose.length = 21 ∧ (∀ l ∈ pose, inFrame l) ∧
      detectSignLanguageLetter pose = .ok "H") := by
  have hin : ∀ x y : ℚ, 0 ≤ x → x ≤ 1 → 0 ≤ y → y ≤ 1 → inFrame ⟨x, y⟩ :=
    fun _ _ h1 h2 h3 h4 => ⟨h1, h2, h3, h4⟩
  have hc : inFrame ⟨1/2, 1/2⟩ := hin _ _ (by norm_num) (by norm_num) (by norm_num) (by norm_num)
  refine ⟨by decide, ⟨poseA, rfl, ?_, detect_poseA⟩, ⟨poseB, rfl, ?_, detect_poseB⟩,
    ⟨poseD, rfl, ?_, detect_poseD⟩, ⟨poseE, rfl, ?_, detect_poseE⟩,
    ⟨poseI, rfl, ?_, detect_poseI⟩, ⟨poseH, rfl, ?_, detect_poseH⟩⟩
  · exact inFrame_poseOf _ _ _ _ _
      (hin _ _ (by norm_num) (by norm_num) (by norm_num) (by norm_num)) hc hc hc hc
  · exact inFrame_poseOf _ _ _ _ _
      (hin _ _ (by norm_num) (by norm_num) (by norm_num) (by norm_num)) hc hc hc hc
  · exact inFrame_poseOf _ _ _ _ _ hc
      (hin _ _ (by norm_num) (by norm_num) (by norm_num) (by norm_num))
      (hin _ _ (by norm_num) (by norm_num) (by norm_num) (by norm_num))
      (hin _ _ (by norm_num) (by norm_num) (by norm_num) (by norm_num))
      (hin _ _ (by norm_num) (by norm_num) (by norm_num) (by norm_num))
  · exact inFrame_poseOf _ _ _ _ _ hc hc hc hc hc
  · exact inFrame_poseOf _ _ _ _ _ hc hc hc hc
      (hin _ _ (by norm_num) (by norm_num) (by norm_num) (by norm_num))
  · exact inFrame_poseOf _ _ _ _ _ hc
      (hin _ _ (by norm_num) (by norm_num) (by norm_num) (by norm_num))
      (hin _ _ (by norm_num) (by norm_num) (by norm_num) (by norm_num))
      (hin _ _ (by norm_num) (by norm_num) (by norm_num) (by norm_num))
      (hin _ _ (by norm_num) (by norm_num) (by norm_num) (by norm_num))

/-- C17: the predicate of G implies that of D, the predicate of P is that of
A, the predicate of S is that of E, the predicate of U implies that of R and
the predicate of Z implies that of D; hence on every pose of 21 landmarks the
classifier never returns "G", "P", "S", "U" or "Z". -/
theorem detect_never_G_P_S_U_Z (landmarks : List Landmark) (h : landmarks.length = 21) :
    (∀ f, isG f = true → isD f = true) ∧ isP = isA ∧ (∀ f, isS f = isE f) ∧
    (∀ f, isU f = true → isR f = true) ∧ (∀ f, isZ f = true → isD f = true) ∧
    detectSignLanguageLetter landmarks ≠ .ok "G" ∧
    detectSignLanguageLetter landmarks ≠ .ok "P" ∧
    detectSignLanguageLetter landmarks ≠ .ok "S" ∧
    detectSignLanguageLetter landmarks ≠ .ok "U" ∧
    detectSignLanguageLetter landmarks ≠ .ok "Z" := by
  obtain ⟨f, _, hd⟩ := tips_of_length landmarks h
  rw [hd]
  simp only [ne_eq, Except.ok.injEq]
  exact ⟨isG_imp_isD, isP_eq_isA, isS_eq_isE, isU_imp_isR, isZ_imp_isD,
    firstMatch_cascade_ne_G f, firstMatch_cascade_ne_P f, firstMatch_cascade_ne_S f,
    firstMatch_cascade_ne_U f, firstMatch_cascade_ne_Z f⟩

theorem detect_never_G_P_S_U_Z_witness :
    originPose.length = 21 ∧
    ((∀ f, isG f = true → isD f = true) ∧ isP = isA ∧ (∀ f, isS f = isE f) ∧
    (∀ f, isU f = true → isR f = true) ∧ (∀ f, isZ f = true → isD f = true) ∧
    detectSignLanguageLetter originPose ≠ .ok "G" ∧
    detectSignLanguageLetter originPose ≠ .ok "P" ∧
    detectSignLanguageLetter originPose ≠ .ok "S" ∧
    detectSignLanguageLetter originPose ≠ .ok "U" ∧
    detectSignLanguageLetter originPose ≠ .ok "Z") :=
  ⟨rfl, detect_never_G_P_S_U_Z originPose rfl⟩

/-- C18: a fingertip configuration satisfying the predicate of T satisfies the
predicate of F when middle.y is smaller than both ring.y and pinky.y, and
otherwise has middle.y > thumb.y and satisfies the predicate of Q; F and Q are
tested before T, hence on every pose of 21 landmarks the classifier never
returns "T". -/
theorem detect_never_T (landmarks : List Landmark) (h : landmarks.length = 21) :
    (∀ f, isT f = true →
      (f.middle.y < f.ring.y ∧ f.middle.y < f.pinky.y → isF f = true) ∧
      (¬ (f.middle.y < f.ring.y ∧ f.middle.y < f.pinky.y) →
        f.middle.y > f.thumb.y ∧ isQ f = true)) ∧
    detectSignLanguageLetter landmarks ≠ .ok "T" := by
  obtain ⟨f, _, hd⟩ := tips_of_length landmarks h
  rw [hd, ne_eq, Except.ok.injEq]
  refine ⟨?_, firstMatch_cascade_ne_T f⟩
  intro g hT
  simp only [isT, isF, isQ, Bool.and_eq_true, decide_eq_true_eq, gt_iff_lt] at hT ⊢
  obtain ⟨⟨⟨h1, _⟩, h3⟩, h4⟩ := hT
  constructor
  · exact fun hm => ⟨⟨h1, hm.1⟩, hm.2⟩
  · intro hm
    have hmt : g.thumb.y < g.middle.y := by
      by_contra hle
      exact hm ⟨lt_of_le_of_lt (not_lt.mp hle) h3, lt_of_le_of_lt (not_lt.mp hle) h4⟩
    exact ⟨hmt, ⟨⟨h1, hmt⟩, h3⟩, h4⟩

theorem detect_never_T_witness :
    originPose.length = 21 ∧
    ((∀ f, isT f = true →
      (f.middle.y < f.ring.y ∧ f.middle.y < f.pinky.y → isF f = true) ∧
      (¬ (f.middle.y < f.ring.y ∧ f.middle.y < f.pinky.y) →
        f.middle.y > f.thumb.y ∧ isQ f = true)) ∧
    detectSignLanguageLetter originPose ≠ .ok "T") :=
  ⟨rfl, detect_never_T originPose rfl⟩

/-- C19: in the render that follows `startGame` in the initial state the
detected letter and the target letter are both the empty string and the game
is active, so the match effect fires: the state reached by the start has
score 1 and a target letter drawn from the six letters, while the detected
letter is still empty (no pose has been classified). -/
theorem start_scores_without_sign (random : Nat → ℚ)
    (hrand : 0 ≤ random 1 ∧ random 1 < 1) (fuel : Nat) (hfuel : 2 ≤ fuel) :
    initialState.detectedLetter = "" ∧ initialState.targetLetter = some "" ∧
    initialState.score = 0 ∧ initialState.timeLeft = 10 ∧
    (some startRender.detectedLetter = startRender.targetLetter ∧
      startRender.isGameActive = true) ∧
    (matchEffect random startRender startRender).score = 1 ∧
    ∃ t, startGame random fuel initialState = some t ∧ t.score = 1 ∧ t.detectedLetter = "" ∧
      t.targetLetter ∈ [some "A", some "B", some "D", some "E", some "I", some "H"] ∧
      t.randomCalls = 2 := by
  obtain ⟨k, rfl⟩ := Nat.exists_eq_add_of_le hfuel
  rw [Nat.add_comm]
  refine ⟨rfl, rfl, rfl, rfl, ⟨rfl, rfl⟩, rfl, _, settle_start_initial random k, rfl, rfl,
    stringAt_letters_mem _ hrand.1 hrand.2, rfl⟩

theorem start_scores_without_sign_witness :
    (0 ≤ zeroRandom 1 ∧ zeroRandom 1 < 1) ∧ 2 ≤ 2 ∧
    (initialState.detectedLetter = "" ∧ initialState.targetLetter = some "" ∧
    initialState.score = 0 ∧ initialState.timeLeft = 10 ∧
    (some startRender.detectedLetter = startRender.targetLetter ∧
      startRender.isGameActive = true) ∧
    (matchEffect zeroRandom startRender startRender).score = 1 ∧
    ∃ t, startGame zeroRandom 2 initialState = some t ∧ t.score = 1 ∧ t.detectedLetter = "" ∧
      t.targetLetter ∈ [some "A", some "B", some "D", some "E", some "I", some "H"] ∧
      t.randomCalls = 2) :=
  ⟨⟨le_refl 0, zero_lt_one⟩, le_refl 2,
    start_scores_without_sign zeroRandom ⟨le_refl 0, zero_lt_one⟩ 2 (le_refl 2)⟩

/-! ## Lemmas on rounding to doubles -/

theorem roundHalfEven_ge (m : ℚ) (n : Int) (h : (n : ℚ) ≤ m) : n ≤ roundHalfEven m := by
  have hf : n ≤ ⌊m⌋ := Int.le_floor.mpr h
  unfold roundHalfEven
  split_ifs <;> omega

theorem roundHalfEven_le (m : ℚ) (n : Int) (h : m < (n : ℚ) - 1 / 2) :
    roundHalfEven m ≤ n - 1 := by
  have hlt : ⌊m⌋ < n := Int.floor_lt.mpr (by linarith)
  by_cases hf : ⌊m⌋ = n - 1
  · have hfrac : m - ⌊m⌋ < 1 / 2 := by
      rw [hf]
      push_cast
      linarith
    unfold roundHalfEven
    rw [if_pos hfrac]
    omega
  · unfold roundHalfEven
    split_ifs <;> omega

theorem ulp_small (q : ℚ) (h0 : 0 ≤ q) (h8 : q < 8) :
    ∃ j : Nat, 50 ≤ j ∧ ulp q = 1 / 2 ^ j := by
  have hlog : Int.log 2 |q| ≤ 2 := by
    rw [abs_of_nonneg h0]
    rcases eq_or_lt_of_le h0 with hz | hpos
    · rw [← hz, Int.log_zero_right]
      decide
    · have h3 : Int.log 2 q < 3 := by
        rw [← Int.lt_zpow_iff_log_lt (by decide) hpos]
        norm_num
        exact h8
      omega
  have hexp : ∃ j : Nat, 50 ≤ j ∧ max (Int.log 2 |q|) (-1022) - 52 = -(j : Int) := by
    refine ⟨(52 - max (Int.log 2 |q|) (-1022)).toNat, ?_, ?_⟩ <;> omega
  obtain ⟨j, hj, hz⟩ := hexp
  refine ⟨j, hj, ?_⟩
  unfold ulp
  rw [hz, zpow_neg, zpow_natCast, one_div]

theorem floor_roundDouble_ge (q : ℚ) (h0 : 0 ≤ q) (h8 : q < 8) (n : Int)
    (h : (n : ℚ) ≤ q) : n ≤ ⌊roundDouble q⌋ := by
  obtain ⟨j, _, hu⟩ := ulp_small q h0 h8
  have hpos : (0 : ℚ) < 2 ^ j := by positivity
  have hm : ((n * 2 ^ j : Int) : ℚ) ≤ q / ulp q := by
    rw [hu, div_div_eq_mul_div, div_one]
    push_cast
    exact mul_le_mul_of_nonneg_right h (le_of_lt hpos)
  have hr := roundHalfEven_ge _ _ hm
  have hr2 : ((n * 2 ^ j : Int) : ℚ) ≤ (roundHalfEven (q / ulp q) : ℚ) := by exact_mod_cast hr
  rw [Int.le_floor]
  unfold roundDouble
  rw [hu] at hr2 ⊢
  push_cast at hr2
  rw [mul_one_div, le_div_iff₀ hpos]
  exact hr2

theorem floor_roundDouble_lt (q : ℚ) (h0 : 0 ≤ q) (h8 : q < 8) (n : Int)
    (h : q ≤ (n : ℚ) - 6 / 2 ^ 53) : ⌊roundDouble q⌋ < n := by
  obtain ⟨j, hj, hu⟩ := ulp_small q h0 h8
  have hpos : (0 : ℚ) < 2 ^ j := by positivity
  have h50 : (2 : ℚ) ^ 50 ≤ 2 ^ j := pow_le_pow_right₀ (by norm_num) hj
  have hm : q / ulp q < ((n * 2 ^ j : Int) : ℚ) - 1 / 2 := by
    rw [hu, div_div_eq_mul_div, div_one]
    push_cast
    have h1 : q * 2 ^ j ≤ ((n : ℚ) - 6 / 2 ^ 53) * 2 ^ j :=
      mul_le_mul_of_nonneg_right h (le_of_lt hpos)
    have h2 : (6 : ℚ) / 2 ^ 53 * 2 ^ 50 ≤ 6 / 2 ^ 53 * 2 ^ j :=
      mul_le_mul_of_nonneg_left h50 (by positivity)
    have h3 : (6 : ℚ) / 2 ^ 53 * 2 ^ 50 = 3 / 4 := by norm_num
    linarith
  have hr := roundHalfEven_le _ _ hm
  have hr2 : (roundHalfEven (q / ulp q) : ℚ) ≤ ((n * 2 ^ j : Int) : ℚ) - 1 := by
    exact_mod_cast hr
  rw [Int.floor_lt]
  unfold roundDouble
  rw [hu] at hr2 ⊢
  push_cast at hr2
  rw [mul_one_div, div_lt_iff₀ hpos]
  linarith

theorem log_two_eq (q : ℚ) (e : Int) (h1 : (2 : ℚ) ^ e ≤ q) (h2 : q < (2 : ℚ) ^ (e + 1)) :
    Int.log 2 q = e := by
  have hpos : 0 < q := lt_of_lt_of_le (by positivity) h1
  have hle : e ≤ Int.log 2 q := by
    rw [← Int.zpow_le_iff_le_log (by decide) hpos]
    exact_mod_cast h1
  have hlt : Int.log 2 q < e + 1 := by
    rw [← Int.lt_zpow_iff_log_lt (by decide) hpos]
    exact_mod_cast h2
  omega

theorem roundHalfEven_intCast (n : Int) : roundHalfEven (n : ℚ) = n := by
  unfold roundHalfEven
  rw [Int.floor_intCast, sub_self, if_pos (by norm_num)]

theorem roundHalfEven_tie_odd (f : Int) (hodd : f % 2 = 1) :
    roundHalfEven ((f : ℚ) + 1 / 2) = f + 1 := by
  have hfloor : ⌊(f : ℚ) + 1 / 2⌋ = f := by
    rw [Int.floor_eq_iff]
    constructor <;> linarith
  unfold roundHalfEven
  rw [hfloor, add_sub_cancel_left, if_neg (lt_irrefl _), if_neg (lt_irrefl _),
    if_neg (by omega)]

theorem roundDouble_belowFiveSixths : roundDouble belowFiveSixths = belowFiveSixths := by
  have hlog : Int.log 2 |belowFiveSixths| = -1 := by
    rw [abs_of_nonneg (by norm_num [belowFiveSixths])]
    apply log_two_eq <;> norm_num [belowFiveSixths]
  have hu : ulp belowFiveSixths = 1 / 2 ^ 53 := by
    unfold ulp
    rw [hlog]
    norm_num
  have hm : belowFiveSixths / (1 / 2 ^ 53) = ((7505999378950826 : Int) : ℚ) := by
    norm_num [belowFiveSixths]
  unfold roundDouble
  rw [hu, hm, roundHalfEven_intCast]
  norm_num [belowFiveSixths]

theorem jsMul_belowFiveSixths : jsMul belowFiveSixths (letters.length : ℚ) = 5 := by
  have hq : belowFiveSixths * (letters.length : ℚ) = 11258999068426239 / 2 ^ 51 := by
    rw [letters_length]
    norm_num [belowFiveSixths]
  have hlog : Int.log 2 |(11258999068426239 / 2 ^ 51 : ℚ)| = 2 := by
    rw [abs_of_nonneg (by norm_num)]
    apply log_two_eq <;> norm_num
  have hu : ulp (11258999068426239 / 2 ^ 51 : ℚ) = 1 / 2 ^ 50 := by
    unfold ulp
    rw [hlog]
    norm_num
  have hm : (11258999068426239 / 2 ^ 51 : ℚ) / (1 / 2 ^ 50) =
      ((5629499534213119 : Int) : ℚ) + 1 / 2 := by
    norm_num
  unfold jsMul roundDouble
  rw [hq, hu, hm, roundHalfEven_tie_odd _ (by decide)]
  norm_num

theorem randomLetterIndex_range (r : ℚ) (h0 : 0 ≤ r) (h1 : r ≤ 1 - 1 / 2 ^ 53) :
    0 ≤ randomLetterIndex r ∧ randomLetterIndex r ≤ 5 := by
  unfold randomLetterIndex jsMul
  rw [letters_length]
  have hq0 : 0 ≤ r * 6 := by linarith
  have hq8 : r * 6 < 8 := by
    have : (0 : ℚ) < 1 / 2 ^ 53 := by positivity
    linarith
  constructor
  · exact floor_roundDouble_ge _ hq0 hq8 0 (by exact_mod_cast hq0)
  · have h := floor_roundDouble_lt _ hq0 hq8 6 (by push_cast; linarith)
    omega

theorem randomLetterIndex_ge (r : ℚ) (h0 : 0 ≤ r) (h1 : r ≤ 1 - 1 / 2 ^ 53) (k : Int)
    (hk : (k : ℚ) / 6 ≤ r) : k ≤ randomLetterIndex r := by
  unfold randomLetterIndex jsMul
  rw [letters_length]
  have hq0 : 0 ≤ r * 6 := by linarith
  have hq8 : r * 6 < 8 := by
    have : (0 : ℚ) < 1 / 2 ^ 53 := by positivity
    linarith
  exact floor_roundDouble_ge _ hq0 hq8 k (by linarith)

theorem randomLetterIndex_lt (r : ℚ) (h0 : 0 ≤ r) (h1 : r ≤ 1 - 1 / 2 ^ 53) (k : Int)
    (hk : r ≤ (k : ℚ) / 6 - 1 / 2 ^ 53) : randomLetterIndex r < k := by
  unfold randomLetterIndex jsMul
  rw [letters_length]
  have hq0 : 0 ≤ r * 6 := by linarith
  have hq8 : r * 6 < 8 := by
    have : (0 : ℚ) < 1 / 2 ^ 53 := by positivity
    linarith
  exact floor_roundDouble_lt _ hq0 hq8 k (by linarith)

/-- Away from the margin of 2^-53 below the interval boundaries the draw with
the exact product, used by `generateRandomLetter`, is the draw with the product
rounded to a double. -/
theorem generateRandomLetter_eq_randomLetter (random : Nat → ℚ) (pending : GameState)
    (k : Nat) (hk : k < 6) (ha : (k : ℚ) / 6 ≤ random pending.randomCalls)
    (hb : random pending.randomCalls ≤ ((k : ℚ) + 1) / 6 - 1 / 2 ^ 53) :
    (generateRandomLetter random pending).targetLetter =
      randomLetter (random pending.randomCalls) := by
  have hk0 : (0 : ℚ) ≤ (k : ℚ) := Nat.cast_nonneg k
  have hk5 : (k : ℚ) ≤ 5 := by exact_mod_cast Nat.le_of_lt_succ hk
  have hpos : (0 : ℚ) < 1 / 2 ^ 53 := by positivity
  have h0 : 0 ≤ random pending.randomCalls := by linarith
  have h1 : random pending.randomCalls ≤ 1 - 1 / 2 ^ 53 := by linarith
  have hexact : ⌊random pending.randomCalls * (letters.length : ℚ)⌋ = (k : Int) := by
    rw [letters_length, Int.floor_eq_iff]
    push_cast
    constructor <;> linarith
  have hge : (k : Int) ≤ randomLetterIndex (random pending.randomCalls) :=
    randomLetterIndex_ge _ h0 h1 (k : Int) (by push_cast; exact ha)
  have hlt : randomLetterIndex (random pending.randomCalls) < (k : Int) + 1 :=
    randomLetterIndex_lt _ h0 h1 (k + 1) (by push_cast; exact hb)
  have hidx : randomLetterIndex (random pending.randomCalls) = (k : Int) := by omega
  show stringAt letters ⌊random pending.randomCalls * (letters.length : ℚ)⌋ =
    stringAt letters (randomLetterIndex (random pending.randomCalls))
  rw [hexact, hidx]

/-! ## The random draw -/

/-- C11, the claim as stated fails: for the double 0.8333333333333333, which
lies in [4/6, 5/6), the product with 6 is rounded to the double 5, so the index
is 5 and the letter drawn is "H", not the letter "I" of index 4. -/
theorem random_below_five_sixths_draws_H :
    roundDouble belowFiveSixths = belowFiveSixths ∧
    0 ≤ belowFiveSixths ∧ belowFiveSixths < 1 ∧
    (4 : ℚ) / 6 ≤ belowFiveSixths ∧ belowFiveSixths < (4 + 1) / 6 ∧
    jsMul belowFiveSixths (letters.length : ℚ) = 5 ∧
    randomLetterIndex belowFiveSixths = 5 ∧
    randomLetter belowFiveSixths = some "H" ∧ stringAt letters 4 = some "I" ∧
    randomLetter belowFiveSixths ≠ stringAt letters 4 := by
  have hidx : randomLetterIndex belowFiveSixths = 5 := by
    unfold randomLetterIndex
    rw [jsMul_belowFiveSixths]
    exact Int.floor_ofNat 5
  have hH : randomLetter belowFiveSixths = some "H" := by
    unfold randomLetter
    rw [hidx]
    decide
  refine ⟨roundDouble_belowFiveSixths, by norm_num [belowFiveSixths],
    by norm_num [belowFiveSixths], by norm_num [belowFiveSixths],
    by norm_num [belowFiveSixths], jsMul_belowFiveSixths, hidx, hH, by decide, ?_⟩
  rw [hH]
  decide

/-- C11, amended: for every random value `r` with 0 ≤ r ≤ 1 - 2^-53 (every
double in [0, 1)) the index `floor (r * 6)`, the product being rounded to a
double, lies in 0..5 and the target drawn is a letter of "ABDEIH" (never
`undefined`, never empty); for each k in 0..5 the k-th letter is chosen
whenever k/6 ≤ r ≤ (k+1)/6 - 2^-53, and only when k/6 - 2^-53 < r < (k+1)/6:
the intervals of length 1/6 hold up to a margin of 2^-53 below each
boundary, where the rounding of the product decides. -/
theorem randomLetter_intervals (r : ℚ) (h0 : 0 ≤ r) (h1 : r ≤ 1 - 1 / 2 ^ 53) :
    0 ≤ randomLetterIndex r ∧ randomLetterIndex r ≤ 5 ∧
    randomLetter r ∈ [some "A", some "B", some "D", some "E", some "I", some "H"] ∧
    randomLetter r ≠ none ∧ randomLetter r ≠ some "" ∧
    ∀ k : Nat, k < 6 →
      ((k : ℚ) / 6 ≤ r → r ≤ ((k : ℚ) + 1) / 6 - 1 / 2 ^ 53 →
        randomLetter r = stringAt letters k) ∧
      (randomLetter r = stringAt letters k →
        (k : ℚ) / 6 - 1 / 2 ^ 53 < r ∧ r < ((k : ℚ) + 1) / 6) := by
  obtain ⟨hlo, hhi⟩ := randomLetterIndex_range r h0 h1
  have hmem : randomLetter r ∈
      [some "A", some "B", some "D", some "E", some "I", some "H"] := by
    unfold randomLetter
    generalize randomLetterIndex r = i at hlo hhi
    interval_cases i <;> decide
  refine ⟨hlo, hhi, hmem, ?_, stringAt_letters_ne_empty _, ?_⟩
  · intro hnone
    rw [hnone] at hmem
    revert hmem
    decide
  · intro k hk
    have hk5 : (k : Int) ≤ 5 := by omega
    constructor
    · intro ha hb
      have hge : (k : Int) ≤ randomLetterIndex r :=
        randomLetterIndex_ge r h0 h1 (k : Int) (by push_cast; exact ha)
      have hlt : randomLetterIndex r < (k : Int) + 1 :=
        randomLetterIndex_lt r h0 h1 (k + 1) (by push_cast; exact hb)
      have heq : randomLetterIndex r = k := by omega
      unfold randomLetter
      rw [heq]
    · intro heq
      have hidx : randomLetterIndex r = k :=
        (stringAt_letters_inj _ _ hlo hhi (Int.natCast_nonneg k) hk5).mp heq
      constructor
      · by_contra hle
        have hlt := randomLetterIndex_lt r h0 h1 (k : Int) (by push_cast; exact not_lt.mp hle)
        omega
      · by_contra hge
        have hge2 := randomLetterIndex_ge r h0 h1 (k + 1)
          (by push_cast; exact not_lt.mp hge)
        omega

theorem randomLetter_intervals_witness :
    0 ≤ belowFiveSixths ∧ belowFiveSixths ≤ 1 - 1 / 2 ^ 53 ∧
    (0 ≤ randomLetterIndex belowFiveSixths ∧ randomLetterIndex belowFiveSixths ≤ 5 ∧
    randomLetter belowFiveSixths ∈
      [some "A", some "B", some "D", some "E", some "I", some "H"] ∧
    randomLetter belowFiveSixths ≠ none ∧ randomLetter belowFiveSixths ≠ some "" ∧
    ∀ k : Nat, k < 6 →
      ((k : ℚ) / 6 ≤ belowFiveSixths → belowFiveSixths ≤ ((k : ℚ) + 1) / 6 - 1 / 2 ^ 53 →
        randomLetter belowFiveSixths = stringAt letters k) ∧
      (randomLetter belowFiveSixths = stringAt letters k →
        (k : ℚ) / 6 - 1 / 2 ^ 53 < belowFiveSixths ∧ belowFiveSixths < ((k : ℚ) + 1) / 6)) :=
  ⟨by norm_num [belowFiveSixths], by norm_num [belowFiveSixths],
    randomLetter_intervals belowFiveSixths (by norm_num [belowFiveSixths])
      (by norm_num [belowFiveSixths])⟩

end SignGame
